import Mathlib

/-!
Verification of the dataviz tabular-data engine: the numeric locale
disambiguator (`parseNumber`), the column type detector, the grouping and
aggregation engine, the mapping validator and the row parser entry point.

The TypeScript sources are shallowly embedded: JavaScript numbers are
modelled by `JNum` (NaN, the two infinities, and finite values as exact
rationals — binary-float rounding is outside the claims, which only compare
decimal literals), strings by Lean strings / character lists, and fallible
results by `Option`.  `src/src/engine/detector.ts` contains two divergent
copies of the module; the project spec (§9) adopts the first copy
(lines 114–164, "last separator wins") as canonical, and the repository's own
test-suite values (`parseNumber("1,000") = 1000`) only hold for that copy, so
that copy is the one embedded here.

Rational arithmetic is written through small wrappers (`qAdd`, `qMul`, …)
built on `Rat.divInt`, which the kernel can evaluate; the bridge lemmas right
after them show the wrappers agree with the standard field operations on `ℚ`.
-/

namespace DataViz

/-- Addition on `ℚ` via `Rat.divInt` (kernel-reducible). -/
def qAdd (a b : ℚ) : ℚ := Rat.divInt (a.num * b.den + b.num * a.den) (a.den * b.den)

/-- Multiplication on `ℚ` via `Rat.divInt` (kernel-reducible). -/
def qMul (a b : ℚ) : ℚ := Rat.divInt (a.num * b.num) (a.den * b.den)

/-- Negation on `ℚ` via `Rat.divInt` (kernel-reducible). -/
def qNeg (a : ℚ) : ℚ := Rat.divInt (-a.num) a.den

/-- Division on `ℚ` via `Rat.divInt` (kernel-reducible); division by zero
yields zero, matching Mathlib's convention (call sites guard zero denominators
where JavaScript semantics differ). -/
def qDiv (a b : ℚ) : ℚ := Rat.divInt (a.num * b.den) (a.den * b.num)

/-- Boolean `≤` on `ℚ` by cross-multiplication (kernel-reducible). -/
def qLeB (a b : ℚ) : Bool := decide (a.num * b.den ≤ b.num * a.den)

/-- Boolean `<` on `ℚ` by cross-multiplication (kernel-reducible). -/
def qLtB (a b : ℚ) : Bool := decide (a.num * b.den < b.num * a.den)

theorem rat_num_eq_mul_den (r : ℚ) : (r.num : ℚ) = r * r.den := by
  have hd : ((r.den : ℚ)) ≠ 0 := by
    exact_mod_cast r.den_nz
  rw [eq_comm, ← eq_div_iff hd]
  exact (Rat.num_div_den r).symm

theorem qAdd_eq (a b : ℚ) : qAdd a b = a + b := by
  have ha : ((a.den : ℚ)) ≠ 0 := by exact_mod_cast a.den_nz
  have hb : ((b.den : ℚ)) ≠ 0 := by exact_mod_cast b.den_nz
  unfold qAdd
  rw [Rat.divInt_eq_div]
  push_cast
  rw [div_eq_iff (mul_ne_zero ha hb), rat_num_eq_mul_den a, rat_num_eq_mul_den b]
  ring

theorem qMul_eq (a b : ℚ) : qMul a b = a * b := by
  have ha : ((a.den : ℚ)) ≠ 0 := by exact_mod_cast a.den_nz
  have hb : ((b.den : ℚ)) ≠ 0 := by exact_mod_cast b.den_nz
  unfold qMul
  rw [Rat.divInt_eq_div]
  push_cast
  rw [div_eq_iff (mul_ne_zero ha hb), rat_num_eq_mul_den a, rat_num_eq_mul_den b]
  ring

theorem qNeg_eq (a : ℚ) : qNeg a = -a := by
  have ha : ((a.den : ℚ)) ≠ 0 := by exact_mod_cast a.den_nz
  unfold qNeg
  rw [Rat.divInt_eq_div]
  push_cast
  rw [div_eq_iff ha, rat_num_eq_mul_den a]
  ring

theorem qDiv_eq (a b : ℚ) : qDiv a b = a / b := by
  have ha : ((a.den : ℚ)) ≠ 0 := by exact_mod_cast a.den_nz
  rcases eq_or_ne b 0 with rfl | hb
  · simp [qDiv, Rat.divInt_eq_div]
  · have hbn : ((b.num : ℚ)) ≠ 0 := by
      exact_mod_cast Rat.num_ne_zero.mpr hb
    have hbd : ((b.den : ℚ)) ≠ 0 := by exact_mod_cast b.den_nz
    unfold qDiv
    rw [Rat.divInt_eq_div]
    push_cast
    rw [div_eq_div_iff (mul_ne_zero ha hbn) hb, rat_num_eq_mul_den a, rat_num_eq_mul_den b]
    ring

theorem qLeB_iff (a b : ℚ) : qLeB a b = true ↔ a ≤ b := by
  simp [qLeB, Rat.le_def]

theorem qLtB_iff (a b : ℚ) : qLtB a b = true ↔ a < b := by
  simp [qLtB, Rat.lt_def]

/-- A JavaScript number: NaN, ±Infinity, or a finite value.  Finite values are
kept as exact rationals; every number the engine manipulates originates from a
decimal string, so the rational model agrees with IEEE doubles on all
comparisons the claims make. -/
inductive JNum where
  | nan
  | posInf
  | negInf
  | num (q : ℚ)
deriving DecidableEq, Repr

/-- The JavaScript whitespace characters recognised by `String.prototype.trim`
and by `Number(string)` (ASCII whitespace plus NBSP and the BOM). -/
def isJsWS (c : Char) : Bool :=
  c = ' ' || c = '\t' || c = '\n' || c = '\r' ||
  c = '\x0B' || c = '\x0C' || c = '\u00A0' || c = '\uFEFF'

/-- Model of `String.prototype.trim`: drop leading and trailing whitespace. -/
def jsTrim (l : List Char) : List Char :=
  ((l.dropWhile isJsWS).reverse.dropWhile isJsWS).reverse

/-- Numeric value of a decimal digit string (most significant digit first). -/
def digitsToNat (l : List Char) : Nat :=
  l.foldl (fun a c => 10 * a + (c.toNat - 48)) 0

/-- Value of a hexadecimal digit, `none` for other characters. -/
def hexDigitVal (c : Char) : Option Nat :=
  if c.isDigit then some (c.toNat - 48)
  else if 'a' ≤ c ∧ c ≤ 'f' then some (c.toNat - 87)
  else if 'A' ≤ c ∧ c ≤ 'F' then some (c.toNat - 55)
  else none

/-- Value of an octal digit, `none` for other characters. -/
def octDigitVal (c : Char) : Option Nat :=
  if '0' ≤ c ∧ c ≤ '7' then some (c.toNat - 48) else none

/-- Value of a binary digit, `none` for other characters. -/
def binDigitVal (c : Char) : Option Nat :=
  if c = '0' then some 0 else if c = '1' then some 1 else none

/-- Value of a non-empty digit string in the given radix, `none` if any
character is not a digit of that radix. -/
def parseRadix (val : Char → Option Nat) (base : Nat) (l : List Char) : Option Nat :=
  if l.isEmpty then none
  else l.foldl (fun acc c =>
    match acc, val c with
    | some a, some d => some (base * a + d)
    | _, _ => none) (some 0)

/-- Parse the optional exponent part of a JS decimal literal
(`e`/`E`, optional sign, one or more digits); the empty string means
exponent `0`, anything else malformed. -/
def parseExpPart : List Char → Option Int
  | [] => some 0
  | c :: rest =>
    if c = 'e' ∨ c = 'E' then
      match rest with
      | [] => none
      | d :: ds =>
        if d = '+' then
          (if !ds.isEmpty && ds.all Char.isDigit then some (digitsToNat ds) else none)
        else if d = '-' then
          (if !ds.isEmpty && ds.all Char.isDigit then some (-(digitsToNat ds : Int)) else none)
        else if (d :: ds).all Char.isDigit then some (digitsToNat (d :: ds)) else none
    else none

/-- Scale a rational by a power of ten (the exponent of a decimal literal). -/
def applyExp (x : ℚ) (e : Int) : ℚ :=
  if 0 ≤ e then qMul x ((10 ^ e.toNat : ℕ) : ℚ) else qDiv x ((10 ^ (-e).toNat : ℕ) : ℚ)

/-- Exact value of a decimal literal given its integer digits, fraction digits
and exponent. -/
def decValue (ip fp : List Char) (e : Int) : ℚ :=
  applyExp (qAdd (digitsToNat ip : ℚ) (qDiv (digitsToNat fp : ℚ) ((10 ^ fp.length : ℕ) : ℚ))) e

/-- Parse an unsigned JS decimal literal `digits [. digits] [exp]` or
`. digits [exp]`; `none` when the string is not of that shape. -/
def parseDecMagnitude (l : List Char) : Option ℚ :=
  let p1 := l.span Char.isDigit
  match p1.2 with
  | '.' :: r2 =>
    let p2 := r2.span Char.isDigit
    if p1.1.isEmpty && p2.1.isEmpty then none
    else
      match parseExpPart p2.2 with
      | none => none
      | some e => some (decValue p1.1 p2.1 e)
  | r1 =>
    if p1.1.isEmpty then none
    else
      match parseExpPart r1 with
      | none => none
      | some e => some (decValue p1.1 [] e)

/-- Unsigned numeric literal: `Infinity` or a decimal magnitude; `none` means
the string is not numeric (NaN). -/
def jsUnsigned (l : List Char) : Option JNum :=
  if l = "Infinity".toList then some .posInf
  else (parseDecMagnitude l).map (fun q => .num q)

/-- A literal without a sign: a radix-prefixed integer (`0x…`, `0o…`, `0b…`)
or an unsigned decimal literal / `Infinity`. -/
def nonNegLiteral : List Char → JNum
  | c :: x :: rest =>
    if c = '0' then
      if x = 'x' ∨ x = 'X' then
        ((parseRadix hexDigitVal 16 rest).map (fun n => JNum.num n)).getD .nan
      else if x = 'o' ∨ x = 'O' then
        ((parseRadix octDigitVal 8 rest).map (fun n => JNum.num n)).getD .nan
      else if x = 'b' ∨ x = 'B' then
        ((parseRadix binDigitVal 2 rest).map (fun n => JNum.num n)).getD .nan
      else ((jsUnsigned (c :: x :: rest)).getD .nan)
    else ((jsUnsigned (c :: x :: rest)).getD .nan)
  | l => ((jsUnsigned l).getD .nan)

/-- Model of the ECMAScript `Number(string)` conversion on a character list:
trim, empty means `0`, optional sign followed by `Infinity`/decimal literal,
or an unsigned radix literal; anything else is NaN. -/
def jsNumberOfChars (l0 : List Char) : JNum :=
  match jsTrim l0 with
  | [] => .num 0
  | c :: rest =>
    if c = '+' then
      (match jsUnsigned rest with
       | some j => j
       | none => .nan)
    else if c = '-' then
      (match jsUnsigned rest with
       | some .posInf => .negInf
       | some (.num q) => .num (qNeg q)
       | _ => .nan)
    else nonNegLiteral (c :: rest)

/-- Model of `Number(string)`. -/
def jsNumber (s : String) : JNum := jsNumberOfChars s.toList

example : jsNumber "42" = .num 42 := by decide
example : jsNumber "" = .num 0 := by decide
example : jsNumber "3.14" = .num (Rat.divInt 157 50) := by decide
example : jsNumber "-0.5" = .num (Rat.divInt (-1) 2) := by decide
example : jsNumber "1e3" = .num 1000 := by decide
example : jsNumber "1.5e-2" = .num (Rat.divInt 3 200) := by decide
example : jsNumber "0x1A" = .num 26 := by decide
example : jsNumber "Infinity" = .posInf := by decide
example : jsNumber "-Infinity" = .negInf := by decide
example : jsNumber "abc" = .nan := by decide
example : jsNumber "1.2.3" = .nan := by decide
example : jsNumber "12,34" = .nan := by decide
example : jsNumber "  7  " = .num 7 := by decide
example : jsNumber "5." = .num 5 := by decide
example : jsNumber ".5" = .num (Rat.divInt 1 2) := by decide
example : jsNumber "-0x10" = .nan := by decide

/-! ### The numeric locale disambiguator (`parseNumber`, detector.ts 114–164) -/

/-- Index of the last occurrence of `c` in `l`, `-1` when absent — model of
`String.prototype.lastIndexOf`. -/
def lastIndexOf (l : List Char) (c : Char) : Int :=
  l.enum.foldl (fun acc p => if p.2 = c then (p.1 : Int) else acc) (-1)

/-- Replace the first occurrence of `a` by `b` — model of the
single-occurrence `String.prototype.replace(a, b)`. -/
def replaceFirst : List Char → Char → Char → List Char
  | [], _, _ => []
  | c :: rest, a, b => if c = a then b :: rest else c :: replaceFirst rest a b

/-- Matcher for one-or-more groups of the separator followed by exactly three
digits, anchored to the end: the `(sep\d{3})+$` part of the grouping regexes. -/
def sepGroups (sep : Char) : List Char → Bool
  | s :: a :: b :: c :: rest =>
    s == sep && a.isDigit && b.isDigit && c.isDigit &&
      (rest.isEmpty || sepGroups sep rest)
  | _ => false

/-- Matcher for `^-?\d{1,3}(sep\d{3})+$` (the US/EU thousands-grouping
regexes).  Since a group starts with the non-digit separator, the regex
matches exactly when the maximal leading digit run has length 1–3 and the
remainder is a run of separator groups. -/
def dropLeadingMinus (l : List Char) : List Char :=
  match l with
  | [] => []
  | c :: rest => if c = '-' then rest else c :: rest

def thousandsShape (sep : Char) (l : List Char) : Bool :=
  let p := (dropLeadingMinus l).span Char.isDigit
  decide (1 ≤ p.1.length) && decide (p.1.length ≤ 3) && sepGroups sep p.2

/-- Matcher for `^-?\d+(,\d+)$` (a single decimal comma, EU style).  With the
maximal-digit-run reading this is: digits, one comma, digits. -/
def euDecimalShape (l : List Char) : Bool :=
  let p := (dropLeadingMinus l).span Char.isDigit
  !p.1.isEmpty &&
    (match p.2 with
     | c :: ds => c = ',' && !ds.isEmpty && ds.all Char.isDigit
     | _ => false)

/-- The `isNaN(n) ? null : n` guard applied to every conversion result. -/
def guardNaN (n : JNum) : Option JNum :=
  if n = .nan then none else some n

/-- The numeric locale disambiguator, detector.ts lines 114–164:
trim; reject empty and lone minus; with both separators present the one whose
last occurrence is later is the decimal separator and the other is stripped;
with only commas, exact 3-digit grouping strips the commas, else a single
comma group is the decimal comma; with only dots, exact 3-digit grouping
strips the dots; otherwise convert the trimmed string directly.  `none`
models the TypeScript `null`. -/
def parseNumber (value : String) : Option JNum :=
  let trimmed := jsTrim value.toList
  if trimmed = [] ∨ trimmed = ['-'] then none
  else
    let hasComma := trimmed.contains ','
    let hasDot := trimmed.contains '.'
    if hasComma && hasDot then
      if lastIndexOf trimmed ',' > lastIndexOf trimmed '.' then
        guardNaN (jsNumberOfChars (replaceFirst (trimmed.filter (fun c => c ≠ '.')) ',' '.'))
      else
        guardNaN (jsNumberOfChars (trimmed.filter (fun c => c ≠ ',')))
    else if hasComma && thousandsShape ',' trimmed then
      guardNaN (jsNumberOfChars (trimmed.filter (fun c => c ≠ ',')))
    else if hasComma && euDecimalShape trimmed then
      guardNaN (jsNumberOfChars (replaceFirst trimmed ',' '.'))
    else if hasDot && thousandsShape '.' trimmed then
      guardNaN (jsNumberOfChars (trimmed.filter (fun c => c ≠ '.')))
    else
      guardNaN (jsNumberOfChars trimmed)

example : parseNumber "42" = some (.num 42) := by decide
example : parseNumber "-7" = some (.num (-7)) := by decide
example : parseNumber "0" = some (.num 0) := by decide
example : parseNumber "3.14" = some (.num (Rat.divInt 157 50)) := by decide
example : parseNumber "-0.5" = some (.num (Rat.divInt (-1) 2)) := by decide
example : parseNumber "1,000" = some (.num 1000) := by decide
example : parseNumber "1,234,567.89" = some (.num (Rat.divInt 123456789 100)) := by decide
example : parseNumber "12,345" = some (.num 12345) := by decide
example : parseNumber "1.000" = some (.num 1000) := by decide
example : parseNumber "1.234.567,89" = some (.num (Rat.divInt 123456789 100)) := by decide
example : parseNumber "12.345" = some (.num 12345) := by decide
example : parseNumber "" = none := by decide
example : parseNumber "abc" = none := by decide
example : parseNumber "-" = none := by decide
example : parseNumber "N/A" = none := by decide
example : parseNumber "3,14" = some (.num (Rat.divInt 157 50)) := by decide
example : parseNumber "1.2.3" = none := by decide
example : parseNumber "12,34,56" = none := by decide
example : parseNumber "1.23,45" = some (.num (Rat.divInt 2469 20)) := by decide
example : parseNumber "Infinity" = some .posInf := by decide
example : parseNumber " 8 " = some (.num 8) := by decide

/-! ### Cells, rows and JavaScript coercions -/

/-- The four column types of `charts/types` (`DataType`). -/
inductive DataType where
  | string
  | number
  | date
  | boolean
deriving DecidableEq, Repr

/-- The six aggregation methods of `charts/types` (`AggregationType`). -/
inductive AggregationType where
  | sum
  | mean
  | median
  | count
  | min
  | max
deriving DecidableEq, Repr

/-- A raw cell value of a `DataRow`: null/undefined/absent, a string, a
number, or a boolean.  (`Date`-object cells of the TypeScript union never
occur in the engine pipeline — the row parser produces only raw strings — and
appear in no claim, so they are not modelled.) -/
inductive Cell where
  | null
  | str (s : String)
  | num (n : JNum)
  | bool (b : Bool)
deriving DecidableEq, Repr

/-- Integer floor of a non-negative rational, as a natural number. -/
def qFloorNat (q : ℚ) : Nat := (q.num / (q.den : Int)).toNat

def qSub (a b : ℚ) : ℚ := qAdd a (qNeg b)

/-- Decimal digits of the fractional part of `r ∈ [0,1)`, up to `fuel`
digits (every number the engine produces is a terminating decimal, for which
this is exact; the fuel bound stands in for JS shortest-roundtrip printing of
other values, which no claim exercises). -/
def fracDigits : Nat → ℚ → String
  | 0, _ => ""
  | fuel + 1, r =>
    if r = 0 then ""
    else
      let r10 := qMul r (10 : ℚ)
      let d := qFloorNat r10
      toString d ++ fracDigits fuel (qSub r10 (d : ℚ))

/-- Decimal rendering of a non-negative rational. -/
def finiteToString (q : ℚ) : String :=
  let i := qFloorNat q
  let f := qSub q (i : ℚ)
  if f = 0 then toString i else toString i ++ "." ++ fracDigits 25 f

/-- Model of JavaScript `String(number)`. -/
def jsNumToString : JNum → String
  | .nan => "NaN"
  | .posInf => "Infinity"
  | .negInf => "-Infinity"
  | .num q => if qLtB q 0 then "-" ++ finiteToString (qNeg q) else finiteToString q

/-- Model of JavaScript `String(cell)` for the cell values that reach it. -/
def cellToString : Cell → String
  | .null => "null"
  | .str s => s
  | .num n => jsNumToString n
  | .bool true => "true"
  | .bool false => "false"

/-- Model of `cell ?? ""`: null/undefined becomes the empty string. -/
def orEmptyString : Cell → Cell
  | .null => .str ""
  | c => c

/-- The `v == null || v === ""` test used by the detector's filters. -/
def isNullOrEmpty : Cell → Bool
  | .null => true
  | .str s => s = ""
  | _ => false

/-- ASCII lower-casing, model of `String.prototype.toLowerCase` on the
inputs that occur here. -/
def jsToLower (s : String) : String := String.mk (s.toList.map Char.toLower)

/-- `String.prototype.trim` on a Lean string. -/
def jsTrimStr (s : String) : String := String.mk (jsTrim s.toList)

/-- A data row: an ordered string-keyed record of raw cell values. -/
abbrev Row := List (String × Cell)

/-- Model of `row[name]`: first binding of `name`, `undefined` (`.null`)
when absent. -/
def rowGet : Row → String → Cell
  | [], _ => .null
  | (k, v) :: rest, n => if k = n then v else rowGet rest n

/-! ### The column type detector (detector.ts 43–102) -/

/-- The `BOOLEAN_VALUES` literal set. -/
def booleanValues : List String :=
  ["true", "false", "yes", "no", "1", "0", "ja", "nein", "oui", "non"]

def isBooleanToken (s : String) : Bool := booleanValues.contains (jsToLower s)

/-- `^\d{4}-\d{2}-\d{2}$` (ISO). -/
def isoDateShape : List Char → Bool
  | [a, b, c, d, '-', e, f, '-', g, h] =>
    a.isDigit && b.isDigit && c.isDigit && d.isDigit &&
      e.isDigit && f.isDigit && g.isDigit && h.isDigit
  | _ => false

/-- `^\d{2}\/\d{2}\/\d{4}$` (US). -/
def usDateShape : List Char → Bool
  | [a, b, '/', c, d, '/', e, f, g, h] =>
    a.isDigit && b.isDigit && c.isDigit && d.isDigit &&
      e.isDigit && f.isDigit && g.isDigit && h.isDigit
  | _ => false

/-- `^\d{2}\.\d{2}\.\d{4}$` (EU). -/
def euDateShape : List Char → Bool
  | [a, b, '.', c, d, '.', e, f, g, h] =>
    a.isDigit && b.isDigit && c.isDigit && d.isDigit &&
      e.isDigit && f.isDigit && g.isDigit && h.isDigit
  | _ => false

/-- `^\d{2}-\d{2}-\d{4}$` (alternate). -/
def altDateShape : List Char → Bool
  | [a, b, '-', c, d, '-', e, f, g, h] =>
    a.isDigit && b.isDigit && c.isDigit && d.isDigit &&
      e.isDigit && f.isDigit && g.isDigit && h.isDigit
  | _ => false

/-- `^\d{4}\/\d{2}\/\d{2}$` (year first). -/
def jpDateShape : List Char → Bool
  | [a, b, c, d, '/', e, f, '/', g, h] =>
    a.isDigit && b.isDigit && c.isDigit && d.isDigit &&
      e.isDigit && f.isDigit && g.isDigit && h.isDigit
  | _ => false

/-- `DATE_PATTERNS.some((p) => p.test(v))`. -/
def matchesDatePattern (s : String) : Bool :=
  isoDateShape s.toList || usDateShape s.toList || euDateShape s.toList ||
    altDateShape s.toList || jpDateShape s.toList

/-- The strict `count / length > 0.8` threshold test of the detector (the
literal `0.8`; the exact-rational comparison agrees with the IEEE-double one
for every feasible sample size). -/
def overThreshold (count len : Nat) : Bool :=
  qLtB (Rat.divInt 4 5) (qDiv (count : ℚ) (len : ℚ))

/-- `detectSingleColumnType` (detector.ts 84–102): empty sample is `string`;
otherwise boolean, date, number are tried in order, each cleared only when
strictly more than 80% of the sampled values match. -/
def detectSingleColumnType (values : List Cell) : DataType :=
  if values.length = 0 then .string
  else
    let stringValues := values.map (fun v => jsTrimStr (cellToString v))
    let boolCount := (stringValues.filter (fun v => isBooleanToken v)).length
    if overThreshold boolCount stringValues.length then .boolean
    else
      let dateCount := (stringValues.filter (fun v => matchesDatePattern v)).length
      if overThreshold dateCount stringValues.length then .date
      else
        let numberCount := (stringValues.filter (fun v => (parseNumber v).isSome)).length
        if overThreshold numberCount stringValues.length then .number
        else .string

example : detectSingleColumnType [] = .string := by decide
example : detectSingleColumnType [.str "true", .str "false", .str "yes", .str "no", .str "JA"]
    = .boolean := by decide
example : detectSingleColumnType [.str "2024-01-15", .str "2024-02-20"] = .date := by decide
example : detectSingleColumnType [.str "1234", .str "5678"] = .number := by decide
example : detectSingleColumnType [.str "Widgets", .str "Gadgets"] = .string := by decide

/-! ### JavaScript arithmetic on `JNum` -/

/-- JS `+` on numbers. -/
def jadd : JNum → JNum → JNum
  | .nan, _ => .nan
  | _, .nan => .nan
  | .posInf, .negInf => .nan
  | .negInf, .posInf => .nan
  | .posInf, _ => .posInf
  | _, .posInf => .posInf
  | .negInf, _ => .negInf
  | _, .negInf => .negInf
  | .num a, .num b => .num (qAdd a b)

/-- JS division of a number by an array length. -/
def jdivNat (a : JNum) (n : Nat) : JNum :=
  if n = 0 then
    match a with
    | .nan => .nan
    | .posInf => .posInf
    | .negInf => .negInf
    | .num q => if q = 0 then .nan else if qLtB 0 q then .posInf else .negInf
  else
    match a with
    | .nan => .nan
    | .posInf => .posInf
    | .negInf => .negInf
    | .num q => .num (qDiv q (n : ℚ))

/-- Binary `Math.min`. -/
def jminB : JNum → JNum → JNum
  | .nan, _ => .nan
  | _, .nan => .nan
  | .negInf, _ => .negInf
  | _, .negInf => .negInf
  | .posInf, b => b
  | a, .posInf => a
  | .num x, .num y => if qLeB x y then .num x else .num y

/-- Binary `Math.max`. -/
def jmaxB : JNum → JNum → JNum
  | .nan, _ => .nan
  | _, .nan => .nan
  | .posInf, _ => .posInf
  | _, .posInf => .posInf
  | .negInf, b => b
  | a, .negInf => a
  | .num x, .num y => if qLeB x y then .num y else .num x

/-- `Math.min(...l)` (`Infinity` on the empty spread). -/
def jMinList (l : List JNum) : JNum := l.foldl jminB .posInf

/-- `Math.max(...l)` (`-Infinity` on the empty spread). -/
def jMaxList (l : List JNum) : JNum := l.foldl jmaxB .negInf

/-- `l.reduce((a, b) => a + b, 0)`. -/
def jSum (l : List JNum) : JNum := l.foldl jadd (.num 0)

/-- Comparator order of `(a, b) => a - b`: true when `a` sorts no later than
`b` (a NaN comparator value is treated as "keep order", the one
implementation-defined corner, which no claim exercises). -/
def jleSort : JNum → JNum → Bool
  | .nan, _ => true
  | _, .nan => true
  | .negInf, _ => true
  | _, .posInf => true
  | .posInf, _ => false
  | _, .negInf => false
  | .num x, .num y => qLeB x y

def insertAsc (x : JNum) : List JNum → List JNum
  | [] => [x]
  | y :: rest => if jleSort x y then x :: y :: rest else y :: insertAsc x rest

/-- `[...values].sort((a, b) => a - b)`: a stable ascending sort. -/
def sortAsc (l : List JNum) : List JNum := l.foldr insertAsc []

/-! ### The grouping and aggregation engine (mapper.ts 53–106) -/

/-- `aggregate` (mapper.ts 53–75): fold a list of contributing numbers with
the chosen method; the empty list yields `0` defensively. -/
def aggregate (values : List JNum) (method : AggregationType) : JNum :=
  if values.length = 0 then .num 0
  else
    match method with
    | .sum => jSum values
    | .mean => jdivNat (jSum values) values.length
    | .median =>
      let sorted := sortAsc values
      let mid := sorted.length / 2
      if sorted.length % 2 = 1 then sorted.getD mid .nan
      else jdivNat (jadd (sorted.getD (mid - 1) .nan) (sorted.getD mid .nan)) 2
    | .count => .num (values.length : ℚ)
    | .min => jMinList values
    | .max => jMaxList values

/-- One aggregated output group of `groupAndAggregate`. -/
structure MappedPoint where
  category : String
  value : JNum
deriving DecidableEq, Repr

/-- `String(row[categoryColumn] ?? "")`. -/
def categoryOf (categoryColumn : String) (row : Row) : String :=
  cellToString (orEmptyString (rowGet row categoryColumn))

/-- `typeof rawValue === "number" ? rawValue : parseNumber(String(rawValue ?? ""))`:
the value a row contributes, `none` when it fails to resolve. -/
def resolveValue (valueColumn : String) (row : Row) : Option JNum :=
  match rowGet row valueColumn with
  | .num j => some j
  | c => parseNumber (cellToString (orEmptyString c))

/-- Append `v` to the bucket of `cat`, creating the bucket at the end on
first sight — the insertion-ordered `Map<string, number[]>`. -/
def addToGroups : List (String × List JNum) → String → JNum → List (String × List JNum)
  | [], cat, v => [(cat, [v])]
  | (c, vs) :: rest, cat, v =>
    if c = cat then (c, vs ++ [v]) :: rest else (c, vs) :: addToGroups rest cat v

/-- One iteration of the `for (const row of data)` loop: rows whose value
fails to resolve are skipped. -/
def gStep (categoryColumn valueColumn : String)
    (gs : List (String × List JNum)) (row : Row) : List (String × List JNum) :=
  match resolveValue valueColumn row with
  | none => gs
  | some v => addToGroups gs (categoryOf categoryColumn row) v

/-- `groupAndAggregate` (mapper.ts 81–106). -/
def groupAndAggregate (data : List Row) (categoryColumn valueColumn : String)
    (aggregation : AggregationType) : List MappedPoint :=
  (data.foldl (gStep categoryColumn valueColumn) []).map
    (fun g => { category := g.1, value := aggregate g.2 aggregation })

/-- The five rows of the spec's grouping example. -/
def regionRows : List Row :=
  [[("Region", .str "North"), ("Sales", .str "100")],
   [("Region", .str "South"), ("Sales", .str "200")],
   [("Region", .str "North"), ("Sales", .str "150")],
   [("Region", .str "South"), ("Sales", .str "250")],
   [("Region", .str "East"), ("Sales", .str "300")]]

example : groupAndAggregate regionRows "Region" "Sales" .sum =
    [{ category := "North", value := .num 250 },
     { category := "South", value := .num 450 },
     { category := "East", value := .num 300 }] := by decide

/-! ### Column metadata (detector.ts 43–79) -/

/-- Column metadata (`ColumnMeta`; the `minDate`/`maxDate` fields for date
columns are never written by the engine and appear in no claim). -/
structure ColumnMeta where
  name : String
  detectedType : DataType
  confirmedType : DataType
  uniqueValues : Nat
  nullCount : Nat
  sampleValues : List Cell
  min : Option JNum
  max : Option JNum
  mean : Option JNum
deriving DecidableEq, Repr

/-- The numbers of a column that parse successfully over the FULL dataset:
`allValues.map((v) => parseNumber(String(v ?? ""))).filter((n) => n !== null)`. -/
def fullColumnNums (data : List Row) (name : String) : List JNum :=
  ((data.map (fun row => rowGet row name)).map
    (fun v => parseNumber (cellToString (orEmptyString v)))).reduceOption

/-- The body of the `headers.map` callback of `detectColumnTypes`: sample the
first 100 rows for classification, then compute null count, distinct count
and — for number columns with at least one successful parse — min, max and
mean over the full dataset. -/
def detectOneColumn (data : List Row) (name : String) : ColumnMeta :=
  let sample := data.take 100
  let values := (sample.map (fun row => rowGet row name)).filter
    (fun v => !isNullOrEmpty v)
  let detectedType := detectSingleColumnType values
  let allValues := data.map (fun row => rowGet row name)
  let nullCount := (allValues.filter (fun v => isNullOrEmpty v)).length
  let uniqueValues := ((allValues.filter (fun v => !isNullOrEmpty v)).dedup).length
  let sampleValues := values.take 5
  let base : ColumnMeta :=
    { name := name, detectedType := detectedType, confirmedType := detectedType,
      uniqueValues := uniqueValues, nullCount := nullCount,
      sampleValues := sampleValues, min := none, max := none, mean := none }
  if detectedType = .number then
    let nums := fullColumnNums data name
    if 0 < nums.length then
      { base with
        min := some (jMinList nums), max := some (jMaxList nums),
        mean := some (jdivNat (jSum nums) nums.length) }
    else base
  else base

/-- `detectColumnTypes` (detector.ts 43–79). -/
def detectColumnTypes (data : List Row) (headers : List String) : List ColumnMeta :=
  headers.map (detectOneColumn data)

/-! ### The mapping validator (validator, unnamed part 137–193) -/

/-- A chart dimension requirement (`DimensionDefinition`, restricted to the
fields the validator reads plus `name` for its messages). -/
structure DimensionDefinition where
  id : String
  name : String
  required : Bool
  acceptedTypes : List DataType
  multiple : Bool
deriving DecidableEq, Repr

/-- A mapping entry: a single column name or an array of column names. -/
inductive MappingVal where
  | one (s : String)
  | many (l : List String)
deriving DecidableEq, Repr

/-- `MappingConfig`: a string-keyed record of mapping entries. -/
abbrev MappingConfig := List (String × MappingVal)

/-- `mapping[dim.id]`: first binding, `undefined` when absent. -/
def mappingGet : MappingConfig → String → Option MappingVal
  | [], _ => none
  | (k, v) :: rest, n => if k = n then some v else mappingGet rest n

structure ValidationError where
  dimensionId : String
  message : String
deriving DecidableEq, Repr

structure ValidationWarning where
  dimensionId : String
  message : String
deriving DecidableEq, Repr

structure ValidationResult where
  isValid : Bool
  errors : List ValidationError
  warnings : List ValidationWarning
deriving DecidableEq, Repr

/-- JS falsiness of `mapping[dim.id]` (`!mapped`): undefined or the empty
string; an array is always truthy, even when empty. -/
def mappedFalsy : Option MappingVal → Bool
  | none => true
  | some (.one s) => s = ""
  | some (.many _) => false

/-- `!mapped || (Array.isArray(mapped) && mapped.length === 0)`. -/
def requiredMissing (m : Option MappingVal) : Bool :=
  mappedFalsy m ||
    (match m with
     | some (.many l) => l.isEmpty
     | _ => false)

/-- The column names referenced by a truthy mapping entry
(`Array.isArray(mapped) ? mapped : [mapped]`). -/
def mappedNames : MappingVal → List String
  | .one s => [s]
  | .many l => l

/-- `columns.find((c) => c.name === colName)`. -/
def findColumn : List ColumnMeta → String → Option ColumnMeta
  | [], _ => none
  | c :: rest, n => if c.name = n then some c else findColumn rest n

/-- TypeScript name of a column type, as it appears in warning messages. -/
def typeName : DataType → String
  | .string => "string"
  | .number => "number"
  | .date => "date"
  | .boolean => "boolean"

/-- The error/warning contributions of one referenced column name. -/
def checkColumnName (columns : List ColumnMeta) (dim : DimensionDefinition)
    (colName : String) : List ValidationError × List ValidationWarning :=
  match findColumn columns colName with
  | none =>
    ([{ dimensionId := dim.id,
        message := "Column \"" ++ colName ++ "\" not found in data." }], [])
  | some col =>
    if dim.acceptedTypes.contains col.confirmedType then ([], [])
    else
      ([], [{ dimensionId := dim.id,
              message := "\"" ++ colName ++ "\" is " ++ typeName col.confirmedType ++
                ", but \"" ++ dim.name ++ "\" expects " ++
                String.intercalate " or " (dim.acceptedTypes.map typeName) ++ "." }])

/-- The error/warning contributions of one dimension, in source order:
required check (with early continue), the per-column loop, then the
multiplicity check. -/
def validateDim (mapping : MappingConfig) (columns : List ColumnMeta)
    (dim : DimensionDefinition) : List ValidationError × List ValidationWarning :=
  let mapped := mappingGet mapping dim.id
  if dim.required && requiredMissing mapped then
    ([{ dimensionId := dim.id, message := "\"" ++ dim.name ++ "\" is required." }], [])
  else if mappedFalsy mapped then ([], [])
  else
    let names := match mapped with
      | some mv => mappedNames mv
      | none => []
    let per := names.foldl
      (fun acc n => (acc.1 ++ (checkColumnName columns dim n).1,
        acc.2 ++ (checkColumnName columns dim n).2)) ([], [])
    let multErr :=
      if !dim.multiple &&
          (match mapped with
           | some (.many l) => decide (1 < l.length)
           | _ => false) then
        [{ dimensionId := dim.id,
           message := "\"" ++ dim.name ++ "\" accepts only one column." }]
      else []
    (per.1 ++ multErr, per.2)

/-- `validateMapping` (validator, unnamed part 137–193). -/
def validateMapping (dimensions : List DimensionDefinition) (mapping : MappingConfig)
    (columns : List ColumnMeta) : ValidationResult :=
  let acc := dimensions.foldl
    (fun acc dim => (acc.1 ++ (validateDim mapping columns dim).1,
      acc.2 ++ (validateDim mapping columns dim).2)) ([], [])
  { isValid := acc.1.isEmpty, errors := acc.1, warnings := acc.2 }

/-- The dimension list of the column chart template
(`charts/column-chart/index.ts`), used by the repository's validator tests. -/
def columnChartDimensions : List DimensionDefinition :=
  [{ id := "x", name := "Categories (X Axis)", required := true,
     acceptedTypes := [.string, .number, .date], multiple := false },
   { id := "y", name := "Values (Y Axis)", required := true,
     acceptedTypes := [.number], multiple := false },
   { id := "color", name := "Color (Series)", required := false,
     acceptedTypes := [.string], multiple := false }]

/-- The two-column metadata list of the validator tests. -/
def testColumns : List ColumnMeta :=
  [{ name := "Category", detectedType := .string, confirmedType := .string,
     uniqueValues := 0, nullCount := 0, sampleValues := [],
     min := none, max := none, mean := none },
   { name := "Value", detectedType := .number, confirmedType := .number,
     uniqueValues := 0, nullCount := 0, sampleValues := [],
     min := none, max := none, mean := none }]

example :
    (validateMapping columnChartDimensions
      [("x", .one "Category"), ("y", .one "Value")] testColumns).isValid = true := by decide
example :
    (validateMapping columnChartDimensions
      [("x", .one "Category")] testColumns).isValid = false := by decide

/-! ### The row parser entry point (`parseText`, parser, unnamed part 29–64) -/

/-- A parse result (`ParseResult`). -/
structure ParseResult where
  data : List Row
  columns : List ColumnMeta
  rawHeaders : List String
  rowCount : Nat
  errors : List String
deriving DecidableEq, Repr

/-- Modelled from the spec: CSV splitting is delegated to the external
PapaParse dependency, which is not part of this repository's sources.  Per
§4.2 the delimiter is auto-detected among comma, tab and semicolon; this
model picks the character most frequent in the first non-blank line
(comma on ties). -/
def detectDelimiter (firstLine : List Char) : Char :=
  let countOf := fun (c : Char) => (firstLine.filter (fun x => x = c)).length
  let commas := countOf ','
  let tabs := countOf '\t'
  let semis := countOf ';'
  if commas ≥ tabs ∧ commas ≥ semis then ','
  else if tabs ≥ semis then '\t'
  else ';'

/-- Split a character list at every occurrence of `delim`. -/
def splitOnChar (delim : Char) : List Char → List (List Char)
  | [] => [[]]
  | c :: rest =>
    let r := splitOnChar delim rest
    if c = delim then [] :: r
    else
      match r with
      | f :: tailParts => (c :: f) :: tailParts
      | [] => [[c]]

/-- Drop a trailing carriage return (`\r\n` line endings). -/
def dropCR (l : List Char) : List Char :=
  match l.getLast? with
  | some '\r' => l.dropLast
  | _ => l

/-- Modelled from the spec: PapaParse with `header: true`,
`skipEmptyLines: "greedy"`, `dynamicTyping: false` and a trimming
`transformHeader`.  Lines are split on newlines, fully blank lines skipped,
fields split on the auto-detected delimiter; the first line gives the
trimmed headers and every following line one row whose cells stay raw
strings; a row with a field count different from the header count produces a
row-level error message (its fields are still paired positionally). -/
def papaParseModel (text : String) : List String × List Row × List String :=
  let lines := ((text.toList.splitOn '\n').map dropCR).filter
    (fun l => jsTrim l ≠ [])
  match lines with
  | [] => ([], [], [])
  | h :: rest =>
    let delim := detectDelimiter h
    let headers := (splitOnChar delim h).map (fun f => jsTrimStr (String.mk f))
    let rows := rest.map (fun line =>
      (headers.zip ((splitOnChar delim line).map (fun f => Cell.str (String.mk f)))))
    let errors := (rest.enum.filter
      (fun p => (splitOnChar delim p.2).length ≠ headers.length)).map
      (fun p => "Row " ++ toString p.1 ++ ": field count mismatch")
    (headers, rows, errors)

/-- `parseText` (parser, unnamed part 29–64): empty trimmed input is the
"Empty input" failure; a parse whose errors leave no data is failed whole;
otherwise rows, detected columns, raw headers, row count and the collected
row-level errors are returned. -/
def parseText (text : String) : ParseResult :=
  if jsTrimStr text = "" then
    { data := [], columns := [], rawHeaders := [], rowCount := 0, errors := ["Empty input"] }
  else
    let r := papaParseModel (jsTrimStr text)
    if r.2.2 ≠ [] ∧ r.2.1 = [] then
      { data := [], columns := [], rawHeaders := [], rowCount := 0, errors := r.2.2 }
    else
      { data := r.2.1, columns := detectColumnTypes r.2.1 r.1, rawHeaders := r.1,
        rowCount := r.2.1.length, errors := r.2.2 }

example : (parseText "").rowCount = 0 := by decide
example : (parseText "Name,Value\nAlpha,100\nBeta,200\nGamma,300").rowCount = 3 := by decide
example : (parseText "Name,Value\nAlpha,100\nBeta,200\nGamma,300").rawHeaders
    = ["Name", "Value"] := by decide

/-! ### General helper lemmas -/

theorem mem_dropWhile_of_neg {p : Char → Bool} {c : Char} (hc : p c = false) :
    ∀ {l : List Char}, c ∈ l → c ∈ l.dropWhile p := by
  intro l
  induction l with
  | nil => intro h; exact absurd h (List.not_mem_nil c)
  | cons x xs ih =>
    intro h
    rw [List.dropWhile_cons]
    split_ifs with hx
    · rcases List.mem_cons.mp h with rfl | hmem
      · rw [hc] at hx; exact absurd hx (by simp)
      · exact ih hmem
    · exact h

theorem mem_jsTrim {c : Char} (hc : isJsWS c = false) {l : List Char} (h : c ∈ l) :
    c ∈ jsTrim l := by
  unfold jsTrim
  rw [List.mem_reverse]
  apply mem_dropWhile_of_neg hc
  rw [List.mem_reverse]
  exact mem_dropWhile_of_neg hc h

theorem dropWhile_eq_self_of_none {p : Char → Bool} {l : List Char}
    (h : ∀ x ∈ l, p x = false) : l.dropWhile p = l := by
  cases l with
  | nil => rfl
  | cons x xs =>
    rw [List.dropWhile_cons]
    simp [h x (List.mem_cons_self x xs)]

theorem jsTrim_eq_self {l : List Char} (h : ∀ x ∈ l, isJsWS x = false) : jsTrim l = l := by
  unfold jsTrim
  rw [dropWhile_eq_self_of_none h,
    dropWhile_eq_self_of_none (fun x hx => h x (List.mem_reverse.mp hx)),
    List.reverse_reverse]

theorem replaceFirst_self (l : List Char) (a : Char) : replaceFirst l a a = l := by
  induction l with
  | nil => rfl
  | cons x xs ih =>
    unfold replaceFirst
    split_ifs with h
    · rw [h]
    · rw [ih]

theorem not_jsWS_of_isDigit {c : Char} (h : c.isDigit = true) : isJsWS c = false := by
  rw [Bool.eq_false_iff]
  intro hws
  simp only [isJsWS, Bool.or_eq_true, decide_eq_true_eq] at hws
  rcases hws with (((((((h1 | h1) | h1) | h1) | h1) | h1) | h1) | h1) <;>
    (subst h1; revert h; decide)

theorem contains_false_of_all_digits {l : List Char} (sep : Char)
    (hsep : sep.isDigit = false) (h : ∀ c ∈ l, c.isDigit = true) :
    l.contains sep = false := by
  rw [Bool.eq_false_iff]
  intro hc
  rw [List.contains, List.elem_iff] at hc
  rw [h sep hc] at hsep
  exact Bool.true_eq_false.mp hsep

/-! ### Evaluating the JS number model on pure digit strings -/

theorem span_all_digits {l : List Char} (h : ∀ c ∈ l, c.isDigit = true) :
    l.span Char.isDigit = (l, []) := by
  rw [List.span_eq_take_drop, List.takeWhile_eq_self_iff.mpr h,
    List.dropWhile_eq_nil_iff.mpr h]

theorem decValue_int (ip : List Char) : decValue ip [] 0 = (digitsToNat ip : ℚ) := by
  unfold decValue applyExp
  rw [if_pos le_rfl, qMul_eq, qAdd_eq, qDiv_eq]
  show ((digitsToNat ip : ℚ) + (digitsToNat [] : ℚ) / _) * _ = _
  norm_num [digitsToNat]

theorem parseDecMagnitude_all_digits {l : List Char} (hne : l ≠ [])
    (h : ∀ c ∈ l, c.isDigit = true) :
    parseDecMagnitude l = some (decValue l [] 0) := by
  unfold parseDecMagnitude
  rw [span_all_digits h]
  have : l.isEmpty = false := by
    cases l with
    | nil => exact absurd rfl hne
    | cons a as => rfl
  simp [this, parseExpPart]

theorem jsUnsigned_all_digits {l : List Char} (hne : l ≠ [])
    (h : ∀ c ∈ l, c.isDigit = true) :
    jsUnsigned l = some (.num (digitsToNat l)) := by
  unfold jsUnsigned
  rw [if_neg, parseDecMagnitude_all_digits hne h]
  · rw [Option.map_some', decValue_int]
  · intro he
    have : ('I' : Char).isDigit = true := h 'I' (he ▸ (by decide))
    exact absurd this (by decide)

theorem nonNegLiteral_all_digits {l : List Char} (hne : l ≠ [])
    (h : ∀ c ∈ l, c.isDigit = true) :
    nonNegLiteral l = .num (digitsToNat l) := by
  have hj : jsUnsigned l = some (.num (digitsToNat l)) := jsUnsigned_all_digits hne h
  match l with
  | [] => exact absurd rfl hne
  | [c] =>
    show (jsUnsigned [c]).getD JNum.nan = _
    rw [hj]
    rfl
  | c :: x :: rest =>
    have hx : x.isDigit = true := h x (by simp)
    have hxx : ¬(x = 'x' ∨ x = 'X') := by
      rintro (rfl | rfl) <;> exact absurd hx (by decide)
    have hxo : ¬(x = 'o' ∨ x = 'O') := by
      rintro (rfl | rfl) <;> exact absurd hx (by decide)
    have hxb : ¬(x = 'b' ∨ x = 'B') := by
      rintro (rfl | rfl) <;> exact absurd hx (by decide)
    show (if c = '0' then
        if x = 'x' ∨ x = 'X' then _ else if x = 'o' ∨ x = 'O' then _
        else if x = 'b' ∨ x = 'B' then _ else (jsUnsigned (c :: x :: rest)).getD JNum.nan
      else (jsUnsigned (c :: x :: rest)).getD JNum.nan) = _
    by_cases hc : c = '0'
    · rw [if_pos hc, if_neg hxx, if_neg hxo, if_neg hxb, hj]
      rfl
    · rw [if_neg hc, hj]
      rfl

theorem jsNumberOfChars_all_digits {l : List Char} (hne : l ≠ [])
    (h : ∀ c ∈ l, c.isDigit = true) :
    jsNumberOfChars l = .num (digitsToNat l) := by
  unfold jsNumberOfChars
  rw [jsTrim_eq_self (fun x hx => not_jsWS_of_isDigit (h x hx))]
  match l with
  | [] => exact absurd rfl hne
  | c :: cs =>
    have hc := h c (by simp)
    have h1 : c ≠ '+' := by rintro rfl; exact absurd hc (by decide)
    have h2 : c ≠ '-' := by rintro rfl; exact absurd hc (by decide)
    show (if c = '+' then _ else if c = '-' then _ else nonNegLiteral (c :: cs)) = _
    rw [if_neg h1, if_neg h2]
    exact nonNegLiteral_all_digits hne h

theorem guardNaN_num (q : ℚ) : guardNaN (.num q) = some (.num q) := by
  unfold guardNaN
  rw [if_neg]
  intro hc
  exact JNum.noConfusion hc

/-! ### Claim theorems: concrete evaluations -/

/-- C6: on the five Region/Sales example rows, grouping by Region and summing
Sales yields exactly North=250, South=450, East=300 in first-seen order, and
the mean variant gives the North group the value 125. -/
theorem groupAndAggregate_region_example :
    groupAndAggregate regionRows "Region" "Sales" .sum =
      [{ category := "North", value := .num 250 },
       { category := "South", value := .num 450 },
       { category := "East", value := .num 300 }] ∧
    ((groupAndAggregate regionRows "Region" "Sales" .mean).find?
        (fun d => d.category == "North")).map MappedPoint.value = some (.num 125) := by
  decide

/-- The CSV string of the parser example. -/
def exampleCsv : String := "Name,Value\nAlpha,100\nBeta,200\nGamma,300"

/-- C8: parsing empty input yields zero rows and the descriptive
"Empty input" error; parsing the example CSV yields three rows, headers
Name/Value, and rows whose every cell is the raw unconverted string — in
particular the first row is `{Name:"Alpha", Value:"100"}`. -/
theorem parseText_empty_and_example :
    (parseText "").rowCount = 0 ∧ (parseText "").data = [] ∧
    (parseText "").errors = ["Empty input"] ∧
    (parseText exampleCsv).rowCount = 3 ∧
    (parseText exampleCsv).rawHeaders = ["Name", "Value"] ∧
    (parseText exampleCsv).data =
      [[("Name", Cell.str "Alpha"), ("Value", Cell.str "100")],
       [("Name", Cell.str "Beta"), ("Value", Cell.str "200")],
       [("Name", Cell.str "Gamma"), ("Value", Cell.str "300")]] := by
  decide

/-- A sample in which exactly 4 of 5 values are boolean tokens. -/
def thresholdSample : List Cell :=
  [.str "true", .str "true", .str "true", .str "true", .str "x"]

/-- C4 counterexample: on a sample where exactly 80% of the values match the
boolean classifier (4 of 5), the detector does NOT classify the column as
boolean — it falls through all the way to string, because the code's
threshold test `count / length > 0.8` is strict, not "at least 80%". -/
theorem detect_at_exact_threshold_not_boolean :
    ((thresholdSample.map (fun v => jsTrimStr (cellToString v))).filter
      (fun v => isBooleanToken v)).length = 4 ∧
    thresholdSample.length = 5 ∧
    detectSingleColumnType thresholdSample = .string := by
  decide

/-- C10: `parseNumber` never returns NaN — every conversion branch guards its
`Number()` result with an `isNaN` check that maps NaN to null. -/
theorem parseNumber_ne_some_nan (s : String) : parseNumber s ≠ some JNum.nan := by
  have hg : ∀ n, guardNaN n ≠ some JNum.nan := by
    intro n
    unfold guardNaN
    split_ifs with h
    · simp
    · intro hc
      exact h (Option.some.inj hc)
  unfold parseNumber
  dsimp only
  split_ifs <;> first | exact hg _ | simp

/-! ### C1: when parseNumber returns null -/

/-- C1 (amended): `parseNumber` is total (never raises), returns null whenever
the input trims to the empty string or a lone minus sign, and any input whose
trimmed form is a non-empty run of decimal digits parses to that integer;
however an input containing digits in an unsupported separator arrangement
may also return null, so the degenerate inputs are not the only null cases. -/
theorem parseNumber_none_degenerate (s : String) :
    ((jsTrim s.toList = [] ∨ jsTrim s.toList = ['-']) → parseNumber s = none) ∧
    (jsTrim s.toList ≠ [] → (∀ c ∈ jsTrim s.toList, c.isDigit = true) →
      parseNumber s = some (.num ((digitsToNat (jsTrim s.toList) : ℕ) : ℚ))) := by
  constructor
  · intro h
    unfold parseNumber
    dsimp only
    rw [if_pos h]
  · intro hne hdig
    have hcomma : (jsTrim s.toList).contains ',' = false :=
      contains_false_of_all_digits ',' (by decide) hdig
    have hdot : (jsTrim s.toList).contains '.' = false :=
      contains_false_of_all_digits '.' (by decide) hdig
    have hnm : jsTrim s.toList ≠ ['-'] := by
      intro he
      have h2 := hdig '-' (he ▸ (by simp))
      exact absurd h2 (by decide)
    unfold parseNumber
    dsimp only
    rw [if_neg (not_or.mpr ⟨hne, hnm⟩), hcomma, hdot]
    simp only [Bool.false_and, Bool.false_eq_true, if_false]
    rw [jsNumberOfChars_all_digits hne hdig, guardNaN_num]

/-- C1 counterexample: `"1.2.3"` trims to itself — neither empty nor a lone
minus sign — and contains digit characters, yet `parseNumber` returns null;
so null is not returned only for empty / lone-minus / digit-free inputs, and
not every other input yields a number. -/
theorem parseNumber_digits_but_null :
    parseNumber "1.2.3" = none ∧
    jsTrim "1.2.3".toList ≠ [] ∧ jsTrim "1.2.3".toList ≠ ['-'] ∧
    '1' ∈ jsTrim "1.2.3".toList ∧ Char.isDigit '1' = true := by
  decide

theorem parseNumber_none_degenerate_witness :
    parseNumber " 42" = some (.num ((digitsToNat (jsTrim " 42".toList) : ℕ) : ℚ)) :=
  (parseNumber_none_degenerate " 42").2 (by decide) (by decide)

/-! ### C2: both separators present -/

/-- C2: whenever both "," and "." occur in the input, the separator whose
last occurrence has the greater index is taken as the decimal separator:
every occurrence of the other character is stripped as a grouping separator,
the decimal separator is normalised to ".", and the result is converted
(with the NaN guard); in particular "1.234.567,89" and "1,234,567.89" both
parse to 1234567.89. -/
theorem parseNumber_both_separators (s : String)
    (hc : ',' ∈ s.toList) (hd : '.' ∈ s.toList) :
    (parseNumber s =
      if lastIndexOf (jsTrim s.toList) ',' > lastIndexOf (jsTrim s.toList) '.' then
        guardNaN (jsNumberOfChars
          (replaceFirst ((jsTrim s.toList).filter (fun c => c ≠ '.')) ',' '.'))
      else
        guardNaN (jsNumberOfChars
          (replaceFirst ((jsTrim s.toList).filter (fun c => c ≠ ',')) '.' '.'))) ∧
    parseNumber "1.234.567,89" = some (.num (Rat.divInt 123456789 100)) ∧
    parseNumber "1,234,567.89" = some (.num (Rat.divInt 123456789 100)) := by
  refine ⟨?_, by decide, by decide⟩
  have hc' : ',' ∈ jsTrim s.toList := mem_jsTrim (by decide) hc
  have hd' : '.' ∈ jsTrim s.toList := mem_jsTrim (by decide) hd
  have h1 : jsTrim s.toList ≠ [] := List.ne_nil_of_mem hc'
  have h2 : jsTrim s.toList ≠ ['-'] := by
    intro he
    rw [he] at hc'
    exact absurd hc' (by decide)
  have hcb : (jsTrim s.toList).contains ',' = true := by
    simp only [List.contains, List.elem_iff]
    exact hc'
  have hdb : (jsTrim s.toList).contains '.' = true := by
    simp only [List.contains, List.elem_iff]
    exact hd'
  unfold parseNumber
  dsimp only
  rw [if_neg (not_or.mpr ⟨h1, h2⟩), hcb, hdb, replaceFirst_self]
  rfl

theorem parseNumber_both_separators_witness :
    parseNumber "1,2.3" =
      guardNaN (jsNumberOfChars
        (replaceFirst ((jsTrim "1,2.3".toList).filter (fun c => c ≠ ',')) '.' '.')) := by
  have h := (parseNumber_both_separators "1,2.3" (by decide) (by decide)).1
  rw [if_neg (by decide)] at h
  exact h

/-! ### C4: the classifier chain and its threshold -/

def sampleStrings (values : List Cell) : List String :=
  values.map (fun v => jsTrimStr (cellToString v))

def boolMatches (values : List Cell) : Nat :=
  ((sampleStrings values).filter (fun v => isBooleanToken v)).length

def dateMatches (values : List Cell) : Nat :=
  ((sampleStrings values).filter (fun v => matchesDatePattern v)).length

def numberMatches (values : List Cell) : Nat :=
  ((sampleStrings values).filter (fun v => (parseNumber v).isSome)).length

/-- C4 (amended): an empty sample yields string; the classifiers run in the
fixed order boolean, date, number, string; a classification is cleared
exactly when STRICTLY more than 80% of the sampled values match it, and the
sample falls through to the next classifier exactly when the current ratio is
at most 80% (not "below 80%": at exactly 80% the column also falls
through). -/
theorem detectSingleColumnType_chain (values : List Cell) :
    (values = [] → detectSingleColumnType values = .string) ∧
    (detectSingleColumnType values = .boolean ↔
      values ≠ [] ∧ overThreshold (boolMatches values) values.length = true) ∧
    (detectSingleColumnType values = .date ↔
      values ≠ [] ∧ overThreshold (boolMatches values) values.length = false ∧
        overThreshold (dateMatches values) values.length = true) ∧
    (detectSingleColumnType values = .number ↔
      values ≠ [] ∧ overThreshold (boolMatches values) values.length = false ∧
        overThreshold (dateMatches values) values.length = false ∧
        overThreshold (numberMatches values) values.length = true) ∧
    (detectSingleColumnType values = .string ↔
      values = [] ∨ (overThreshold (boolMatches values) values.length = false ∧
        overThreshold (dateMatches values) values.length = false ∧
        overThreshold (numberMatches values) values.length = false)) := by
  by_cases hv : values = []
  · subst hv
    refine ⟨fun _ => rfl, ?_, ?_, ?_, ?_⟩ <;> simp [detectSingleColumnType]
  · have hlen0 : ¬values.length = 0 := by
      simpa [List.length_eq_zero] using hv
    unfold detectSingleColumnType boolMatches dateMatches numberMatches sampleStrings
    dsimp only
    rw [if_neg hlen0]
    simp only [List.length_map]
    rcases hb : overThreshold ((values.map (fun v => jsTrimStr (cellToString v))).filter
        (fun v => isBooleanToken v)).length values.length with _ | _ <;>
      rcases hd : overThreshold ((values.map (fun v => jsTrimStr (cellToString v))).filter
        (fun v => matchesDatePattern v)).length values.length with _ | _ <;>
      rcases hn : overThreshold ((values.map (fun v => jsTrimStr (cellToString v))).filter
        (fun v => (parseNumber v).isSome)).length values.length with _ | _ <;>
      simp [hv, hb, hd, hn]

theorem detectSingleColumnType_chain_witness :
    detectSingleColumnType [] = DataType.string :=
  (detectSingleColumnType_chain []).1 rfl

/-! ### C3: exact 3-digit thousands grouping -/

/-- A grouped number string: 1–3 leading digits followed by separator-headed
3-digit groups, e.g. `grouped ',' ['1'] [['2','3','4']] = "1,234"`. -/
def grouped (sep : Char) (lead : List Char) (groups : List (List Char)) : List Char :=
  lead ++ (groups.map (fun g => sep :: g)).flatten

theorem takeWhile_all_prefix {p : Char → Bool} :
    ∀ {lead : List Char}, (∀ c ∈ lead, p c = true) → ∀ (s : Char) (rest : List Char),
      p s = false →
      (lead ++ s :: rest).takeWhile p = lead ∧ (lead ++ s :: rest).dropWhile p = s :: rest := by
  intro lead
  induction lead with
  | nil =>
    intro _ s rest hs
    constructor
    · simp [List.takeWhile_cons, hs]
    · simp [List.dropWhile_cons, hs]
  | cons x xs ih =>
    intro h s rest hs
    have hx := h x (by simp)
    have ihr := ih (fun c hc => h c (List.mem_cons_of_mem _ hc)) s rest hs
    constructor
    · simp [List.takeWhile_cons, hx, ihr.1]
    · simp [List.dropWhile_cons, hx, ihr.2]

theorem sepGroups_of_groups (sep : Char) :
    ∀ (groups : List (List Char)), groups ≠ [] →
      (∀ g ∈ groups, g.length = 3 ∧ ∀ c ∈ g, c.isDigit = true) →
      sepGroups sep ((groups.map (fun g => sep :: g)).flatten) = true := by
  intro groups
  induction groups with
  | nil => intro h; exact absurd rfl h
  | cons g gs ih =>
    intro _ hall
    obtain ⟨a, b, c, rfl⟩ := List.length_eq_three.mp (hall g (by simp)).1
    have hd := (hall [a, b, c] (by simp)).2
    have ha := hd a (by simp)
    have hb := hd b (by simp)
    have hc := hd c (by simp)
    show sepGroups sep (sep :: a :: b :: c :: (gs.map (fun g => sep :: g)).flatten) = true
    by_cases hgs : gs = []
    · subst hgs
      simp [sepGroups, ha, hb, hc]
    · have hrec := ih hgs (fun g hg => hall g (List.mem_cons_of_mem _ hg))
      simp [sepGroups, ha, hb, hc, hrec]

theorem flatten_groups_cons (sep a b c : Char) (gs : List (List Char)) :
    ((([a, b, c] :: gs).map (fun g => sep :: g)).flatten) =
      sep :: a :: b :: c :: (gs.map (fun g => sep :: g)).flatten := rfl

theorem thousandsShape_grouped (sep : Char) (hs : sep.isDigit = false)
    (lead : List Char) (h1 : 1 ≤ lead.length) (h3 : lead.length ≤ 3)
    (hl : ∀ c ∈ lead, c.isDigit = true)
    (groups : List (List Char)) (hg : groups ≠ [])
    (hall : ∀ g ∈ groups, g.length = 3 ∧ ∀ c ∈ g, c.isDigit = true) :
    thousandsShape sep (grouped sep lead groups) = true := by
  obtain ⟨g0, gs, rfl⟩ : ∃ g0 gs, groups = g0 :: gs := by
    cases groups with
    | nil => exact absurd rfl hg
    | cons g0 gs => exact ⟨g0, gs, rfl⟩
  obtain ⟨a, b, c, rfl⟩ := List.length_eq_three.mp (hall g0 (by simp)).1
  obtain ⟨l0, lead', rfl⟩ : ∃ l0 lead', lead = l0 :: lead' := by
    cases lead with
    | nil => exact absurd h1 (by simp)
    | cons l0 lead' => exact ⟨l0, lead', rfl⟩
  have hl0 : l0.isDigit = true := hl l0 (by simp)
  have hlm : l0 ≠ '-' := by
    rintro rfl
    exact absurd hl0 (by decide)
  unfold thousandsShape grouped
  rw [flatten_groups_cons]
  have hdrop : dropLeadingMinus ((l0 :: lead') ++
      sep :: a :: b :: c :: (gs.map (fun g => sep :: g)).flatten) =
      (l0 :: lead') ++ sep :: a :: b :: c :: (gs.map (fun g => sep :: g)).flatten := by
    show (if l0 = '-' then _ else _) = _
    rw [if_neg hlm]
    rfl
  rw [hdrop]
  have hspan := takeWhile_all_prefix hl
    sep (a :: b :: c :: (gs.map (fun g => sep :: g)).flatten) hs
  rw [List.span_eq_take_drop, hspan.1, hspan.2]
  dsimp only
  rw [decide_eq_true h1, decide_eq_true h3]
  have := sepGroups_of_groups sep ([a, b, c] :: gs) (by simp) hall
  rw [flatten_groups_cons] at this
  rw [this]
  rfl

theorem filter_ne_sep_join (sep : Char) (hs : sep.isDigit = false) :
    ∀ (groups : List (List Char)),
      (∀ g ∈ groups, ∀ c ∈ g, c.isDigit = true) →
      ((groups.map (fun g => sep :: g)).flatten).filter (fun c => c ≠ sep) = groups.flatten := by
  intro groups
  induction groups with
  | nil => intro _; rfl
  | cons g gs ih =>
    intro hall
    have hg := hall g (by simp)
    rw [List.map_cons, List.flatten_cons, List.flatten_cons, List.filter_append]
    have h1 : (sep :: g).filter (fun c => c ≠ sep) = g := by
      rw [List.filter_cons, if_neg (by simp)]
      apply List.filter_eq_self.mpr
      intro a ha
      have had := hg a ha
      have : a ≠ sep := by
        rintro rfl
        rw [had] at hs
        exact Bool.true_eq_false.mp hs
      simpa using this
    rw [h1, ih (fun g' hg' => hall g' (List.mem_cons_of_mem _ hg'))]

theorem all_digits_grouped_stripped {lead : List Char} {groups : List (List Char)}
    (hl : ∀ c ∈ lead, c.isDigit = true)
    (hall : ∀ g ∈ groups, ∀ c ∈ g, c.isDigit = true) :
    ∀ c ∈ lead ++ groups.flatten, c.isDigit = true := by
  intro c hc
  rcases List.mem_append.mp hc with h | h
  · exact hl c h
  · rcases List.mem_flatten.mp h with ⟨l, hlm, hcl⟩
    exact hall l hlm c hcl

theorem mem_grouped {c : Char} {sep : Char} {lead : List Char} {groups : List (List Char)}
    (h : c ∈ grouped sep lead groups) :
    c ∈ lead ∨ c = sep ∨ ∃ g ∈ groups, c ∈ g := by
  unfold grouped at h
  rcases List.mem_append.mp h with h | h
  · exact Or.inl h
  · rcases List.mem_flatten.mp h with ⟨l, hl, hcl⟩
    rcases List.mem_map.mp hl with ⟨g, hg, rfl⟩
    rcases List.mem_cons.mp hcl with rfl | hcg
    · exact Or.inr (Or.inl rfl)
    · exact Or.inr (Or.inr ⟨g, hg, hcg⟩)

theorem grouped_chars {sep : Char} {lead : List Char} {groups : List (List Char)}
    (hl : ∀ c ∈ lead, c.isDigit = true)
    (hall : ∀ g ∈ groups, g.length = 3 ∧ ∀ c ∈ g, c.isDigit = true) :
    ∀ c ∈ grouped sep lead groups, c.isDigit = true ∨ c = sep := by
  intro c hc
  rcases mem_grouped hc with h | h | ⟨g, hg, hcg⟩
  · exact Or.inl (hl c h)
  · exact Or.inr h
  · exact Or.inl ((hall g hg).2 c hcg)

theorem contains_eq_false_of_not_mem {l : List Char} {c : Char} (h : c ∉ l) :
    l.contains c = false := by
  rw [Bool.eq_false_iff]
  intro hc
  rw [List.contains, List.elem_iff] at hc
  exact h hc

theorem contains_eq_true_of_mem {l : List Char} {c : Char} (h : c ∈ l) :
    l.contains c = true := by
  rw [List.contains, List.elem_iff]
  exact h

theorem grouped_basic_facts (sep : Char) (hsd : sep.isDigit = false)
    (hsw : isJsWS sep = false)
    (lead : List Char) (h1 : 1 ≤ lead.length)
    (hl : ∀ c ∈ lead, c.isDigit = true)
    (groups : List (List Char)) (hg : groups ≠ [])
    (hall : ∀ g ∈ groups, g.length = 3 ∧ ∀ c ∈ g, c.isDigit = true) :
    jsTrim (grouped sep lead groups) = grouped sep lead groups ∧
    grouped sep lead groups ≠ [] ∧
    grouped sep lead groups ≠ ['-'] ∧
    (grouped sep lead groups).contains sep = true ∧
    (grouped sep lead groups).filter (fun c => c ≠ sep) = lead ++ groups.flatten ∧
    lead ++ groups.flatten ≠ [] := by
  obtain ⟨l0, lead', rfl⟩ : ∃ l0 lead', lead = l0 :: lead' := by
    cases lead with
    | nil => exact absurd h1 (by simp)
    | cons l0 lead' => exact ⟨l0, lead', rfl⟩
  obtain ⟨g0, gs, rfl⟩ : ∃ g0 gs, groups = g0 :: gs := by
    cases groups with
    | nil => exact absurd rfl hg
    | cons g0 gs => exact ⟨g0, gs, rfl⟩
  have hl0 := hl l0 (by simp)
  refine ⟨?_, ?_, ?_, ?_, ?_, ?_⟩
  · apply jsTrim_eq_self
    intro x hx
    rcases grouped_chars hl hall x hx with h | rfl
    · exact not_jsWS_of_isDigit h
    · exact hsw
  · show l0 :: (lead' ++ _) ≠ []
    simp
  · show l0 :: (lead' ++ _) ≠ ['-']
    intro he
    have : l0 = '-' := (List.cons.injEq _ _ _ _ ▸ he : _ ∧ _).1
    rw [this] at hl0
    exact absurd hl0 (by decide)
  · apply contains_eq_true_of_mem
    unfold grouped
    apply List.mem_append.mpr
    right
    apply List.mem_flatten.mpr
    exact ⟨sep :: g0, List.mem_map.mpr ⟨g0, by simp, rfl⟩, by simp⟩
  · unfold grouped
    rw [List.filter_append]
    congr 1
    · apply List.filter_eq_self.mpr
      intro a ha
      have had := hl a ha
      have : a ≠ sep := by
        rintro rfl
        rw [had] at hsd
        exact Bool.true_eq_false.mp hsd
      simpa using this
    · exact filter_ne_sep_join sep hsd (g0 :: gs) (fun g hg' => (hall g hg').2)
  · show l0 :: (lead' ++ _) ≠ []
    simp

theorem not_mem_grouped (sep other : Char) (hod : other.isDigit = false)
    (hos : other ≠ sep)
    {lead : List Char} {groups : List (List Char)}
    (hl : ∀ c ∈ lead, c.isDigit = true)
    (hall : ∀ g ∈ groups, g.length = 3 ∧ ∀ c ∈ g, c.isDigit = true) :
    (grouped sep lead groups).contains other = false := by
  apply contains_eq_false_of_not_mem
  intro hmem
  rcases grouped_chars hl hall other hmem with h | h
  · rw [h] at hod
    exact Bool.true_eq_false.mp hod
  · exact hos h

/-- C3: for every string of the shape 1–3 digits followed by one or more
exact 3-digit comma groups, `parseNumber` treats the comma as a thousands
separator and returns the number formed by deleting the commas (US
grouping); symmetrically for exact 3-digit dot groups the dots are deleted
(EU grouping). -/
theorem parseNumber_grouped (lead : List Char) (groups : List (List Char))
    (h1 : 1 ≤ lead.length) (h3 : lead.length ≤ 3)
    (hl : ∀ c ∈ lead, c.isDigit = true)
    (hg : groups ≠ [])
    (hall : ∀ g ∈ groups, g.length = 3 ∧ ∀ c ∈ g, c.isDigit = true) :
    parseNumber (String.mk (grouped ',' lead groups)) =
      some (.num ((digitsToNat (lead ++ groups.flatten) : ℕ) : ℚ)) ∧
    parseNumber (String.mk (grouped '.' lead groups)) =
      some (.num ((digitsToNat (lead ++ groups.flatten) : ℕ) : ℚ)) := by
  have hdigall : ∀ c ∈ lead ++ groups.flatten, c.isDigit = true :=
    all_digits_grouped_stripped hl (fun g hg' => (hall g hg').2)
  constructor
  · -- comma grouping
    obtain ⟨htrim, hne, hnm, hhas, hfilter, hstrne⟩ :=
      grouped_basic_facts ',' (by decide) (by decide) lead h1 hl groups hg hall
    have hnodot : (grouped ',' lead groups).contains '.' = false :=
      not_mem_grouped ',' '.' (by decide) (by decide) hl hall
    have hth : thousandsShape ',' (grouped ',' lead groups) = true :=
      thousandsShape_grouped ',' (by decide) lead h1 h3 hl groups hg hall
    unfold parseNumber
    dsimp only
    have htl : (String.mk (grouped ',' lead groups)).toList = grouped ',' lead groups := rfl
    rw [htl, htrim, if_neg (not_or.mpr ⟨hne, hnm⟩), hhas, hnodot, hth]
    simp only [Bool.and_false, Bool.and_true, Bool.false_eq_true, if_false, if_true]
    rw [hfilter, jsNumberOfChars_all_digits hstrne hdigall, guardNaN_num]
  · -- dot grouping
    obtain ⟨htrim, hne, hnm, hhas, hfilter, hstrne⟩ :=
      grouped_basic_facts '.' (by decide) (by decide) lead h1 hl groups hg hall
    have hnocomma : (grouped '.' lead groups).contains ',' = false :=
      not_mem_grouped '.' ',' (by decide) (by decide) hl hall
    have hth : thousandsShape '.' (grouped '.' lead groups) = true :=
      thousandsShape_grouped '.' (by decide) lead h1 h3 hl groups hg hall
    unfold parseNumber
    dsimp only
    have htl : (String.mk (grouped '.' lead groups)).toList = grouped '.' lead groups := rfl
    rw [htl, htrim, if_neg (not_or.mpr ⟨hne, hnm⟩), hnocomma, hhas, hth]
    simp only [Bool.false_and, Bool.true_and, Bool.false_eq_true, if_false, if_true]
    rw [hfilter, jsNumberOfChars_all_digits hstrne hdigall, guardNaN_num]

theorem parseNumber_grouped_witness :
    parseNumber (String.mk (grouped ',' ['1'] [['2', '3', '4']])) =
      some (.num ((digitsToNat (['1'] ++ [['2', '3', '4']].flatten) : ℕ) : ℚ)) ∧
    parseNumber (String.mk (grouped '.' ['1'] [['2', '3', '4']])) =
      some (.num ((digitsToNat (['1'] ++ [['2', '3', '4']].flatten) : ℕ) : ℚ)) :=
  parseNumber_grouped ['1'] [['2', '3', '4']] (by decide) (by decide) (by decide)
    (by decide) (by decide)

/-! ### C9: column metadata invariants -/

theorem dataType_enum (t : DataType) :
    t = .string ∨ t = .number ∨ t = .date ∨ t = .boolean := by
  cases t
  · exact Or.inl rfl
  · exact Or.inr (Or.inl rfl)
  · exact Or.inr (Or.inr (Or.inl rfl))
  · exact Or.inr (Or.inr (Or.inr rfl))

/-- C9: each metadata record of `detectColumnTypes` is produced per header by
`detectOneColumn`; its confirmed type is one of the four enumerated types
(and defaults to the detected type); its null count and distinct-value count
are computed over the FULL dataset, not the 100-row sample; min/max/mean are
present exactly when the detected type is number and at least one full-data
value parses via `parseNumber`, in which case they are the extrema and
arithmetic mean of the successfully parsed values only (failed parses are
excluded, not treated as zero). -/
theorem detectColumnTypes_stats (data : List Row) (headers : List String) (name : String) :
    detectColumnTypes data headers = headers.map (detectOneColumn data) ∧
    (detectOneColumn data name).name = name ∧
    (detectOneColumn data name).confirmedType = (detectOneColumn data name).detectedType ∧
    ((detectOneColumn data name).confirmedType = .string ∨
      (detectOneColumn data name).confirmedType = .number ∨
      (detectOneColumn data name).confirmedType = .date ∨
      (detectOneColumn data name).confirmedType = .boolean) ∧
    (detectOneColumn data name).nullCount =
      ((data.map (fun r => rowGet r name)).filter (fun v => isNullOrEmpty v)).length ∧
    (detectOneColumn data name).uniqueValues =
      ((data.map (fun r => rowGet r name)).filter (fun v => !isNullOrEmpty v)).dedup.length ∧
    ((detectOneColumn data name).min.isSome ↔
      (detectOneColumn data name).detectedType = .number ∧ fullColumnNums data name ≠ []) ∧
    ((detectOneColumn data name).max.isSome ↔
      (detectOneColumn data name).detectedType = .number ∧ fullColumnNums data name ≠ []) ∧
    ((detectOneColumn data name).mean.isSome ↔
      (detectOneColumn data name).detectedType = .number ∧ fullColumnNums data name ≠ []) ∧
    ((detectOneColumn data name).detectedType = .number → fullColumnNums data name ≠ [] →
      (detectOneColumn data name).min = some (jMinList (fullColumnNums data name)) ∧
      (detectOneColumn data name).max = some (jMaxList (fullColumnNums data name)) ∧
      (detectOneColumn data name).mean =
        some (jdivNat (jSum (fullColumnNums data name)) (fullColumnNums data name).length)) := by
  refine ⟨rfl, ?_⟩
  unfold detectOneColumn
  dsimp only
  split_ifs with hdt hlen
  · have hne : fullColumnNums data name ≠ [] := by
      intro he
      rw [he] at hlen
      exact absurd hlen (by simp)
    exact ⟨rfl, rfl, dataType_enum _, rfl, rfl,
      ⟨fun _ => ⟨hdt, hne⟩, fun _ => rfl⟩,
      ⟨fun _ => ⟨hdt, hne⟩, fun _ => rfl⟩,
      ⟨fun _ => ⟨hdt, hne⟩, fun _ => rfl⟩,
      fun _ _ => ⟨rfl, rfl, rfl⟩⟩
  · have he : fullColumnNums data name = [] := by
      cases hq : fullColumnNums data name with
      | nil => rfl
      | cons a l =>
        rw [hq] at hlen
        exact absurd (by simp) hlen
    exact ⟨rfl, rfl, dataType_enum _, rfl, rfl,
      ⟨fun h => absurd h (by simp), fun h => absurd he h.2⟩,
      ⟨fun h => absurd h (by simp), fun h => absurd he h.2⟩,
      ⟨fun h => absurd h (by simp), fun h => absurd he h.2⟩,
      fun _ hne => absurd he hne⟩
  · exact ⟨rfl, rfl, dataType_enum _, rfl, rfl,
      ⟨fun h => absurd h (by simp), fun h => absurd h.1 hdt⟩,
      ⟨fun h => absurd h (by simp), fun h => absurd h.1 hdt⟩,
      ⟨fun h => absurd h (by simp), fun h => absurd h.1 hdt⟩,
      fun h => absurd h hdt⟩

/-- A two-row single-column dataset for instantiating the statistics facts. -/
def statsRows : List Row := [[("A", Cell.str "100")], [("A", Cell.str "200")]]

theorem detectColumnTypes_stats_witness :
    (detectOneColumn statsRows "A").mean =
      some (jdivNat (jSum (fullColumnNums statsRows "A"))
        (fullColumnNums statsRows "A").length) := by
  have h := detectColumnTypes_stats statsRows ["A"] "A"
  exact (h.2.2.2.2.2.2.2.2.2 (by decide) (by decide)).2.2

/-! ### C5: grouping invariants -/

/-- First-seen deduplication relative to an already-seen set. -/
def firstSeenAux (seen : List String) : List String → List String
  | [] => []
  | c :: cs => if c ∈ seen then firstSeenAux seen cs else c :: firstSeenAux (c :: seen) cs

/-- The distinct values of a list, each at its first occurrence, in order. -/
def firstSeen (l : List String) : List String := firstSeenAux [] l

/-- The categories of the accumulated groups, in insertion order. -/
def groupKeys (gs : List (String × List JNum)) : List String := gs.map Prod.fst

theorem keys_addToGroups (gs : List (String × List JNum)) (cat : String) (v : JNum) :
    groupKeys (addToGroups gs cat v) =
      if cat ∈ groupKeys gs then groupKeys gs else groupKeys gs ++ [cat] := by
  induction gs with
  | nil => simp [addToGroups, groupKeys]
  | cons p rest ih =>
    obtain ⟨c, vs⟩ := p
    unfold addToGroups
    by_cases hc : c = cat
    · subst hc
      rw [if_pos rfl]
      simp [groupKeys]
    · rw [if_neg hc]
      show (c, vs).1 :: groupKeys (addToGroups rest cat v) = _
    -- hmm reduce below in compile loop
      rw [ih]
      have hcc : ¬cat = c := fun he => hc he.symm
      by_cases hm : cat ∈ groupKeys rest
      · rw [if_pos hm, if_pos (show cat ∈ groupKeys ((c, vs) :: rest) from
          List.mem_cons_of_mem _ hm)]
        rfl
      · rw [if_neg hm, if_neg (show cat ∉ groupKeys ((c, vs) :: rest) by
          intro hx
          rcases List.mem_cons.mp hx with he | hx2
          · exact hcc he
          · exact hm hx2)]
        rfl

theorem firstSeenAux_congr :
    ∀ (l : List String) {s1 s2 : List String}, (∀ x, x ∈ s1 ↔ x ∈ s2) →
      firstSeenAux s1 l = firstSeenAux s2 l := by
  intro l
  induction l with
  | nil => intro s1 s2 _; rfl
  | cons c cs ih =>
    intro s1 s2 h
    unfold firstSeenAux
    by_cases hc : c ∈ s1
    · rw [if_pos hc, if_pos ((h c).mp hc)]
      exact ih h
    · rw [if_neg hc, if_neg (fun hm => hc ((h c).mpr hm))]
      congr 1
      exact ih (fun x => by
        constructor
        · intro hx
          rcases List.mem_cons.mp hx with rfl | hx2
          · simp
          · exact List.mem_cons_of_mem _ ((h x).mp hx2)
        · intro hx
          rcases List.mem_cons.mp hx with rfl | hx2
          · simp
          · exact List.mem_cons_of_mem _ ((h x).mpr hx2))

theorem firstSeenAux_nodup :
    ∀ (l seen : List String),
      (firstSeenAux seen l).Nodup ∧ ∀ x ∈ firstSeenAux seen l, x ∉ seen := by
  intro l
  induction l with
  | nil => intro seen; exact ⟨List.nodup_nil, by simp [firstSeenAux]⟩
  | cons c cs ih =>
    intro seen
    unfold firstSeenAux
    by_cases hc : c ∈ seen
    · rw [if_pos hc]
      exact ih seen
    · rw [if_neg hc]
      obtain ⟨hnd, hns⟩ := ih (c :: seen)
      refine ⟨List.nodup_cons.mpr ⟨fun hm => (hns c hm) (by simp), hnd⟩, ?_⟩
      intro x hx
      rcases List.mem_cons.mp hx with rfl | hx2
      · exact hc
      · intro hxs
        exact hns x hx2 (List.mem_cons_of_mem _ hxs)

theorem firstSeenAux_subset :
    ∀ (l seen : List String), ∀ x ∈ firstSeenAux seen l, x ∈ l := by
  intro l
  induction l with
  | nil => intro seen x hx; simp [firstSeenAux] at hx
  | cons c cs ih =>
    intro seen x hx
    unfold firstSeenAux at hx
    by_cases hc : c ∈ seen
    · rw [if_pos hc] at hx
      exact List.mem_cons_of_mem _ (ih seen x hx)
    · rw [if_neg hc] at hx
      rcases List.mem_cons.mp hx with rfl | hx2
      · simp
      · exact List.mem_cons_of_mem _ (ih _ x hx2)

theorem gStep_none {catCol valCol : String} {row : Row}
    (gs : List (String × List JNum)) (hv : resolveValue valCol row = none) :
    gStep catCol valCol gs row = gs := by
  unfold gStep
  rw [hv]

theorem gStep_some {catCol valCol : String} {row : Row} {v : JNum}
    (gs : List (String × List JNum)) (hv : resolveValue valCol row = some v) :
    gStep catCol valCol gs row = addToGroups gs (categoryOf catCol row) v := by
  unfold gStep
  rw [hv]

theorem keys_foldl_gStep (catCol valCol : String) :
    ∀ (data : List Row) (gs : List (String × List JNum)),
      groupKeys (data.foldl (gStep catCol valCol) gs) =
        groupKeys gs ++ firstSeenAux (groupKeys gs)
          ((data.filter (fun r => (resolveValue valCol r).isSome)).map
            (categoryOf catCol)) := by
  intro data
  induction data with
  | nil => intro gs; simp [firstSeenAux]
  | cons row rest ih =>
    intro gs
    rw [List.foldl_cons, List.filter_cons]
    cases hv : resolveValue valCol row with
    | none =>
      simp only [Option.isSome_none, Bool.false_eq_true, if_false]
      rw [gStep_none gs hv]
      exact ih gs
    | some v =>
      simp only [Option.isSome_some, if_true]
      rw [gStep_some gs hv]
      rw [ih (addToGroups gs (categoryOf catCol row) v), keys_addToGroups, List.map_cons]
      conv_rhs => rw [firstSeenAux]
      by_cases hm : categoryOf catCol row ∈ groupKeys gs
      · rw [if_pos hm, if_pos hm]
      · rw [if_neg hm, if_neg hm, List.append_assoc, List.singleton_append]
        congr 2
        apply firstSeenAux_congr
        intro x
        simp [or_comm]

theorem foldl_gStep_filter (catCol valCol : String) :
    ∀ (data : List Row) (gs : List (String × List JNum)),
      (data.filter (fun r => (resolveValue valCol r).isSome)).foldl
          (gStep catCol valCol) gs =
        data.foldl (gStep catCol valCol) gs := by
  intro data
  induction data with
  | nil => intro gs; rfl
  | cons row rest ih =>
    intro gs
    rw [List.filter_cons]
    cases hv : resolveValue valCol row with
    | none =>
      simp only [Option.isSome_none, Bool.false_eq_true, if_false]
      rw [ih gs, List.foldl_cons, gStep_none gs hv]
    | some v =>
      simp only [Option.isSome_some, if_true]
      rw [List.foldl_cons, List.foldl_cons, ih]

/-- C5: `groupAndAggregate` produces its groups' categories exactly as the
first-seen deduplication of the coerced category strings of the rows whose
value resolves (so every distinct contributing category appears exactly once,
in first-seen order, and a category with no contributing value gets no
group); rows whose value fails to resolve contribute nothing at all — the
whole result equals the result on the contributing rows alone; and
aggregating zero contributing values returns 0. -/
theorem groupAndAggregate_groups (data : List Row) (categoryColumn valueColumn : String)
    (aggregation : AggregationType) :
    (groupAndAggregate data categoryColumn valueColumn aggregation).map
        MappedPoint.category =
      firstSeen ((data.filter (fun r => (resolveValue valueColumn r).isSome)).map
        (categoryOf categoryColumn)) ∧
    ((groupAndAggregate data categoryColumn valueColumn aggregation).map
      MappedPoint.category).Nodup ∧
    groupAndAggregate data categoryColumn valueColumn aggregation =
      groupAndAggregate (data.filter (fun r => (resolveValue valueColumn r).isSome))
        categoryColumn valueColumn aggregation ∧
    aggregate [] aggregation = .num 0 ∧
    (∀ p ∈ groupAndAggregate data categoryColumn valueColumn aggregation,
      ∃ r ∈ data, (resolveValue valueColumn r).isSome = true ∧
        categoryOf categoryColumn r = p.category) := by
  have hmapcat : (groupAndAggregate data categoryColumn valueColumn aggregation).map
      MappedPoint.category =
      groupKeys (data.foldl (gStep categoryColumn valueColumn) []) := by
    unfold groupAndAggregate groupKeys
    rw [List.map_map]
    rfl
  have hkeys := keys_foldl_gStep categoryColumn valueColumn data []
  have h1 : (groupAndAggregate data categoryColumn valueColumn aggregation).map
      MappedPoint.category =
      firstSeen ((data.filter (fun r => (resolveValue valueColumn r).isSome)).map
        (categoryOf categoryColumn)) := by
    rw [hmapcat, hkeys]
    show [] ++ _ = _
    rw [List.nil_append]
    rfl
  refine ⟨h1, ?_, ?_, rfl, ?_⟩
  · rw [h1]
    exact (firstSeenAux_nodup _ []).1
  · unfold groupAndAggregate
    rw [foldl_gStep_filter]
  · intro p hp
    have hc : p.category ∈ (groupAndAggregate data categoryColumn valueColumn
        aggregation).map MappedPoint.category := List.mem_map_of_mem _ hp
    rw [h1] at hc
    have hsub := firstSeenAux_subset _ [] _ hc
    rcases List.mem_map.mp hsub with ⟨r, hr, hcat⟩
    rcases List.mem_filter.mp hr with ⟨hrd, hpred⟩
    exact ⟨r, hrd, hpred, hcat⟩

theorem groupAndAggregate_groups_witness :
    (groupAndAggregate regionRows "Region" "Sales" .sum).map MappedPoint.category =
      firstSeen ((regionRows.filter (fun r => (resolveValue "Sales" r).isSome)).map
        (categoryOf "Region")) ∧
    ∃ r ∈ regionRows, (resolveValue "Sales" r).isSome = true ∧
      categoryOf "Region" r = "East" := by
  have h := groupAndAggregate_groups regionRows "Region" "Sales" .sum
  refine ⟨h.1, ?_⟩
  have hmem : ({ category := "East", value := .num 300 } : MappedPoint) ∈
      groupAndAggregate regionRows "Region" "Sales" .sum := by decide
  exact h.2.2.2.2 _ hmem

/-! ### C7: validator laws -/

theorem foldl_pair_append {α β γ : Type} (f : α → List β × List γ) :
    ∀ (l : List α) (acc : List β × List γ),
      l.foldl (fun acc x => (acc.1 ++ (f x).1, acc.2 ++ (f x).2)) acc =
        (acc.1 ++ (l.map (fun x => (f x).1)).flatten,
         acc.2 ++ (l.map (fun x => (f x).2)).flatten) := by
  intro l
  induction l with
  | nil => intro acc; simp
  | cons x xs ih =>
    intro acc
    rw [List.foldl_cons, ih]
    simp [List.append_assoc]

theorem validateMapping_decomp (dims : List DimensionDefinition) (mapping : MappingConfig)
    (columns : List ColumnMeta) :
    (validateMapping dims mapping columns).errors =
      (dims.map (fun d => (validateDim mapping columns d).1)).flatten ∧
    (validateMapping dims mapping columns).warnings =
      (dims.map (fun d => (validateDim mapping columns d).2)).flatten ∧
    (validateMapping dims mapping columns).isValid =
      (dims.map (fun d => (validateDim mapping columns d).1)).flatten.isEmpty := by
  unfold validateMapping
  dsimp only
  rw [foldl_pair_append (validateDim mapping columns) dims ([], [])]
  refine ⟨?_, ?_, ?_⟩ <;> simp

/-- Changing only the confirmed types of the columns. -/
def retypeColumns (f : DataType → DataType) (columns : List ColumnMeta) : List ColumnMeta :=
  columns.map (fun c => { c with confirmedType := f c.confirmedType })

theorem findColumn_retype (f : DataType → DataType) :
    ∀ (columns : List ColumnMeta) (n : String),
      findColumn (retypeColumns f columns) n =
        (findColumn columns n).map (fun c => { c with confirmedType := f c.confirmedType }) := by
  intro columns
  induction columns with
  | nil => intro n; rfl
  | cons c rest ih =>
    intro n
    by_cases hn : c.name = n
    · simp [retypeColumns, findColumn, hn]
    · simp only [retypeColumns, List.map_cons] at *
      show (if ({ c with confirmedType := f c.confirmedType } : ColumnMeta).name = n
        then _ else _) = _
      rw [if_neg hn, findColumn, if_neg hn, ih]

theorem checkColumnName_errors_retype (f : DataType → DataType)
    (columns : List ColumnMeta) (dim : DimensionDefinition) (n : String) :
    (checkColumnName (retypeColumns f columns) dim n).1 =
      (checkColumnName columns dim n).1 := by
  unfold checkColumnName
  rw [findColumn_retype]
  cases findColumn columns n with
  | none => rfl
  | some col =>
    rw [Option.map_some']
    dsimp only
    split_ifs <;> rfl

theorem checkColumnName_errors_empty (columns : List ColumnMeta)
    (dim : DimensionDefinition) (n : String) (col : ColumnMeta)
    (hcol : findColumn columns n = some col) :
    (checkColumnName columns dim n).1 = [] := by
  unfold checkColumnName
  rw [hcol]
  dsimp only
  split_ifs <;> rfl

theorem checkColumnName_warning (columns : List ColumnMeta)
    (dim : DimensionDefinition) (n : String) (col : ColumnMeta)
    (hcol : findColumn columns n = some col)
    (hmis : dim.acceptedTypes.contains col.confirmedType = false) :
    ∃ w ∈ (checkColumnName columns dim n).2, w.dimensionId = dim.id := by
  unfold checkColumnName
  rw [hcol]
  dsimp only
  rw [if_neg (by
    intro hc
    rw [hmis] at hc
    exact Bool.false_ne_true hc)]
  exact ⟨_, List.mem_cons_self _ _, rfl⟩

theorem validateDim_errors_retype (f : DataType → DataType) (mapping : MappingConfig)
    (columns : List ColumnMeta) (dim : DimensionDefinition) :
    (validateDim mapping (retypeColumns f columns) dim).1 =
      (validateDim mapping columns dim).1 := by
  unfold validateDim
  dsimp only
  by_cases c1 : (dim.required && requiredMissing (mappingGet mapping dim.id)) = true
  · rw [if_pos c1, if_pos c1]
  · rw [if_neg c1, if_neg c1]
    by_cases c2 : mappedFalsy (mappingGet mapping dim.id) = true
    · rw [if_pos c2, if_pos c2]
    · rw [if_neg c2, if_neg c2]
      rw [foldl_pair_append (checkColumnName (retypeColumns f columns) dim),
        foldl_pair_append (checkColumnName columns dim)]
      dsimp only
      simp only [checkColumnName_errors_retype]

/-- Decidable per-dimension well-formedness: a required dimension is mapped,
every referenced column exists, and single-column dimensions receive at most
one column. -/
def dimCleanB (mapping : MappingConfig) (columns : List ColumnMeta)
    (dim : DimensionDefinition) : Bool :=
  (!dim.required || !requiredMissing (mappingGet mapping dim.id)) &&
    (match mappingGet mapping dim.id with
     | none => true
     | some mv =>
       mappedFalsy (some mv) ||
         ((mappedNames mv).all (fun n => (findColumn columns n).isSome) &&
           (dim.multiple ||
             (match mv with
              | .many l => decide (l.length ≤ 1)
              | .one _ => true))))

theorem validateDim_clean_errors (mapping : MappingConfig) (columns : List ColumnMeta)
    (dim : DimensionDefinition) (h : dimCleanB mapping columns dim = true) :
    (validateDim mapping columns dim).1 = [] := by
  unfold dimCleanB at h
  rw [Bool.and_eq_true] at h
  obtain ⟨ha, hb⟩ := h
  unfold validateDim
  dsimp only
  by_cases c1 : (dim.required && requiredMissing (mappingGet mapping dim.id)) = true
  · exfalso
    rw [Bool.and_eq_true] at c1
    rw [c1.1, c1.2] at ha
    exact Bool.false_ne_true ha
  · rw [if_neg c1]
    by_cases c2 : mappedFalsy (mappingGet mapping dim.id) = true
    · rw [if_pos c2]
    · rw [if_neg c2]
      cases hmg : mappingGet mapping dim.id with
      | none =>
        exfalso
        apply c2
        rw [hmg]
        rfl
      | some mv =>
        rw [hmg] at hb c2
        dsimp only at hb
        have hfal : mappedFalsy (some mv) = false := Bool.eq_false_iff.mpr c2
        rw [hfal] at hb
        rw [Bool.false_or, Bool.and_eq_true] at hb
        obtain ⟨hall, hmult⟩ := hb
        dsimp only
        rw [foldl_pair_append (checkColumnName columns dim)]
        dsimp only
        have hflat : ((mappedNames mv).map (fun n => (checkColumnName columns dim n).1)).flatten
            = [] := by
          rw [List.flatten_eq_nil_iff]
          intro x hx
          rcases List.mem_map.mp hx with ⟨n, hn, rfl⟩
          have hio := List.all_eq_true.mp hall n hn
          cases hfc : findColumn columns n with
          | none =>
            rw [hfc] at hio
            exact absurd hio (by simp)
          | some col => exact checkColumnName_errors_empty columns dim n col hfc
        rw [hflat]
        have hmz : (if (!dim.multiple &&
            (match some mv with
             | some (.many l) => decide (1 < l.length)
             | _ => false)) = true then
            [{ dimensionId := dim.id,
               message := "\"" ++ dim.name ++ "\" accepts only one column." }]
          else ([] : List ValidationError)) = [] := by
          cases hdm : dim.multiple with
          | true => rw [if_neg (by simp)]
          | false =>
            rw [hdm] at hmult
            rw [Bool.false_or] at hmult
            cases mv with
            | one s => rw [if_neg (by simp)]
            | many l =>
              have hlt : decide (1 < l.length) = false := by
                rw [decide_eq_true_eq] at hmult
                simp
                omega
              rw [if_neg (by simp [hlt])]
        rw [List.nil_append, hmz]
        rfl

theorem validateDim_required_error (mapping : MappingConfig) (columns : List ColumnMeta)
    (dim : DimensionDefinition) (h1 : dim.required = true)
    (h2 : requiredMissing (mappingGet mapping dim.id) = true) :
    (validateDim mapping columns dim).1 =
      [{ dimensionId := dim.id, message := "\"" ++ dim.name ++ "\" is required." }] := by
  unfold validateDim
  dsimp only
  rw [if_pos (by rw [h1, h2]; rfl)]

theorem validateDim_mismatch_warning (mapping : MappingConfig) (columns : List ColumnMeta)
    (dim : DimensionDefinition) (mv : MappingVal)
    (hmv : mappingGet mapping dim.id = some mv)
    (hfal : mappedFalsy (some mv) = false)
    (colName : String) (hname : colName ∈ mappedNames mv)
    (col : ColumnMeta) (hcol : findColumn columns colName = some col)
    (hmis : dim.acceptedTypes.contains col.confirmedType = false) :
    ∃ w ∈ (validateDim mapping columns dim).2, w.dimensionId = dim.id := by
  have hrm : requiredMissing (some mv) = false := by
    unfold requiredMissing
    rw [hfal, Bool.false_or]
    cases mv with
    | one s => rfl
    | many l =>
      have : l ≠ [] := List.ne_nil_of_mem hname
      simpa using this
  unfold validateDim
  dsimp only
  rw [hmv, hrm, hfal]
  rw [if_neg (by simp), if_neg (by simp)]
  dsimp only
  rw [foldl_pair_append (checkColumnName columns dim)]
  dsimp only
  obtain ⟨w, hw, hwid⟩ := checkColumnName_warning columns dim colName col hcol hmis
  refine ⟨w, ?_, hwid⟩
  rw [List.nil_append]
  apply List.mem_flatten.mpr
  exact ⟨(checkColumnName columns dim colName).2,
    List.mem_map.mpr ⟨colName, hname, rfl⟩, hw⟩

/-- The witness dimensions of the counterexample: one required "x" and one
optional "w". -/
def cDimX : DimensionDefinition :=
  { id := "x", name := "X", required := true, acceptedTypes := [.string],
    multiple := false }

def cDimW : DimensionDefinition :=
  { id := "w", name := "W", required := false, acceptedTypes := [.string],
    multiple := false }

def cCols : List ColumnMeta :=
  [{ name := "A", detectedType := .string, confirmedType := .string,
     uniqueValues := 0, nullCount := 0, sampleValues := [],
     min := none, max := none, mean := none }]

def cMapping : MappingConfig := [("x", .one "A"), ("w", .one "Ghost")]

/-- C7 counterexample: every required dimension ("x" is the only one) is
filled with an existing, type-compatible column, yet the result is invalid
with a non-empty error list, because the optional dimension "w" references a
column that does not exist.  So "every required dimension filled with an
existing, type-compatible column" does not suffice for validity. -/
theorem validateMapping_required_filled_but_invalid :
    (([cDimX, cDimW].filter (fun d => d.required)).map (fun d => d.id)) = ["x"] ∧
    mappingGet cMapping "x" = some (.one "A") ∧
    (findColumn cCols "A").isSome = true ∧
    ((findColumn cCols "A").map
      (fun c => cDimX.acceptedTypes.contains c.confirmedType)) = some true ∧
    (validateMapping [cDimX, cDimW] cMapping cCols).isValid = false ∧
    (validateMapping [cDimX, cDimW] cMapping cCols).errors ≠ [] := by
  decide

/-- C7 (amended): `validateMapping` is valid exactly when its error list is
empty, and the error list never depends on the columns' confirmed types — a
mapped, resolved column whose confirmed type is not accepted produces a
warning keyed by the dimension, never an error; a mapping is valid with zero
errors when every dimension is clean (required dimensions mapped, every
referenced column existing, multiplicity respected) — the claim's original
premise, that only the required dimensions need to be well-filled, is not
enough; and omitting a required dimension yields an error keyed by that
dimension's id and overall invalidity. -/
theorem validateMapping_laws (dims : List DimensionDefinition) (mapping : MappingConfig)
    (columns : List ColumnMeta) :
    ((validateMapping dims mapping columns).isValid = true ↔
      (validateMapping dims mapping columns).errors = []) ∧
    (∀ f : DataType → DataType,
      (validateMapping dims mapping (retypeColumns f columns)).errors =
        (validateMapping dims mapping columns).errors) ∧
    (∀ dim ∈ dims, ∀ mv, mappingGet mapping dim.id = some mv →
      mappedFalsy (some mv) = false → ∀ colName ∈ mappedNames mv, ∀ col,
        findColumn columns colName = some col →
        dim.acceptedTypes.contains col.confirmedType = false →
        ∃ w ∈ (validateMapping dims mapping columns).warnings,
          w.dimensionId = dim.id) ∧
    ((∀ dim ∈ dims, dimCleanB mapping columns dim = true) →
      (validateMapping dims mapping columns).errors = [] ∧
      (validateMapping dims mapping columns).isValid = true) ∧
    (∀ dim ∈ dims, dim.required = true →
      requiredMissing (mappingGet mapping dim.id) = true →
      (∃ e ∈ (validateMapping dims mapping columns).errors, e.dimensionId = dim.id) ∧
      (validateMapping dims mapping columns).isValid = false) := by
  obtain ⟨herr, hwarn, hvalid⟩ := validateMapping_decomp dims mapping columns
  refine ⟨?_, ?_, ?_, ?_, ?_⟩
  · rw [hvalid, herr]
    exact List.isEmpty_iff
  · intro f
    obtain ⟨herr2, _, _⟩ := validateMapping_decomp dims mapping (retypeColumns f columns)
    rw [herr2, herr]
    congr 1
    apply List.map_congr_left
    intro d _
    exact validateDim_errors_retype f mapping columns d
  · intro dim hdim mv hmv hfal colName hname col hcol hmis
    obtain ⟨w, hw, hwid⟩ :=
      validateDim_mismatch_warning mapping columns dim mv hmv hfal colName hname col hcol hmis
    refine ⟨w, ?_, hwid⟩
    rw [hwarn]
    apply List.mem_flatten.mpr
    exact ⟨(validateDim mapping columns dim).2, List.mem_map.mpr ⟨dim, hdim, rfl⟩, hw⟩
  · intro hclean
    have hnil : (validateMapping dims mapping columns).errors = [] := by
      rw [herr, List.flatten_eq_nil_iff]
      intro x hx
      rcases List.mem_map.mp hx with ⟨d, hd, rfl⟩
      exact validateDim_clean_errors mapping columns d (hclean d hd)
    refine ⟨hnil, ?_⟩
    rw [hvalid, ← herr, hnil]
    rfl
  · intro dim hdim hreq hmiss
    have hvd := validateDim_required_error mapping columns dim hreq hmiss
    have hmem : ValidationError.mk dim.id ("\"" ++ dim.name ++ "\" is required.") ∈
        (validateMapping dims mapping columns).errors := by
      rw [herr]
      apply List.mem_flatten.mpr
      refine ⟨(validateDim mapping columns dim).1, List.mem_map.mpr ⟨dim, hdim, rfl⟩, ?_⟩
      rw [hvd]
      exact List.mem_cons_self _ _
    refine ⟨⟨_, hmem, rfl⟩, ?_⟩
    rw [hvalid, ← herr]
    rw [Bool.eq_false_iff]
    intro hempty
    rw [List.isEmpty_iff] at hempty
    rw [hempty] at hmem
    exact List.not_mem_nil _ hmem

theorem validateMapping_laws_witness :
    (validateMapping columnChartDimensions
      [("x", .one "Category"), ("y", .one "Value")] testColumns).isValid = true ∧
    (validateMapping columnChartDimensions
      [("x", .one "Category"), ("y", .one "Value")] testColumns).errors = [] ∧
    (validateMapping columnChartDimensions
      [("x", .one "Category")] testColumns).isValid = false ∧
    ∃ e ∈ (validateMapping columnChartDimensions
      [("x", .one "Category")] testColumns).errors, e.dimensionId = "y" := by
  have h1 := (validateMapping_laws columnChartDimensions
    [("x", .one "Category"), ("y", .one "Value")] testColumns).2.2.2.1 (by decide)
  have h2 := (validateMapping_laws columnChartDimensions
    [("x", .one "Category")] testColumns).2.2.2.2
    { id := "y", name := "Values (Y Axis)", required := true,
      acceptedTypes := [.number], multiple := false }
    (by decide) (by decide) (by decide)
  exact ⟨h1.2, h1.1, h2.2, h2.1⟩

end DataViz